import Mathlib

/-!
# Verification of the video-transcription job orchestration core

Shallow embedding of the `learnbytesting-video-transcription` service:
the transcript record store and entity model (`transcript.model.ts`),
the job orchestrator (`transcription.service.ts`), the async download
polling client (`python-youtube-downloader.service.ts`), the caption
helpers (`youtube-api.service.ts`) and the dual-datastore router
(`database.service.ts`).  Collaborator calls (HTTP, filesystem, speech
APIs) are modelled by an explicit environment record carrying each
collaborator's outcome for the run under analysis; machine-level
concerns (actual network transport, real clock) are abstracted to the
values the code branches on.
-/

namespace VT

/-- Decidable equality of `Except` values, used to evaluate the model
on concrete runs. -/
instance {ε α : Type} [DecidableEq ε] [DecidableEq α] :
    DecidableEq (Except ε α) := fun a b =>
  match a, b with
  | .error e, .error f =>
      if h : e = f then isTrue (by rw [h])
      else isFalse (fun hc => h (by injection hc))
  | .ok x, .ok y =>
      if h : x = y then isTrue (by rw [h])
      else isFalse (fun hc => h (by injection hc))
  | .error _, .ok _ => isFalse (fun hc => Except.noConfusion hc)
  | .ok _, .error _ => isFalse (fun hc => Except.noConfusion hc)

/-! ## JavaScript string helpers used by the code -/

/-- Does the character list `hay` start with `n`?  (Used to model
JavaScript substring / anchored-regex tests.) -/
def listStartsWith : List Char → List Char → Bool
  | _, [] => true
  | [], _ :: _ => false
  | h :: hs, n :: ns => h == n && listStartsWith hs ns

/-- Substring containment on character lists. -/
def listContainsSub : List Char → List Char → Bool
  | [], n => n.isEmpty
  | h :: hs, n => listStartsWith (h :: hs) n || listContainsSub hs n

/-- JavaScript `hay.includes(needle)` (case-sensitive substring test). -/
def strContainsSub (hay needle : String) : Bool :=
  listContainsSub hay.data needle.data

/-- Split a string at every occurrence of the character `c`, like
JavaScript `s.split(c)` / Lean `String.splitOn` for a one-character
separator (`"" ↦ [""]`). -/
def splitOnCharAux (c : Char) : List Char → List Char → List String
  | [], acc => [String.mk acc.reverse]
  | x :: rest, acc =>
    if x == c then String.mk acc.reverse :: splitOnCharAux c rest []
    else splitOnCharAux c rest (x :: acc)

/-- `s.split(c)` on strings. -/
def splitOnChar (c : Char) (s : String) : List String :=
  splitOnCharAux c s.data []

/-- JavaScript `s.trim()`: strip leading and trailing whitespace. -/
def strTrim (s : String) : String :=
  String.mk
    (((s.data.dropWhile (·.isWhitespace)).reverse.dropWhile
        (·.isWhitespace)).reverse)

/-- JavaScript `arr.join(sep)`. -/
def joinSep (sep : String) : List String → String
  | [] => ""
  | [x] => x
  | x :: y :: xs => x ++ sep ++ joinSep sep (y :: xs)

/-- JavaScript `s.toLowerCase()` (ASCII case fold, as in the `/i` regex
flags the code uses). -/
def strLower (s : String) : String :=
  String.mk (s.data.map Char.toLower)

/-- `/^\d+$/.test(line)`: the whole line is one or more digits. -/
def isAllDigits (s : String) : Bool :=
  s.length > 0 && s.data.all (·.isDigit)

/-- `/^\d{2}:\d{2}:\d{2}/.test(line)`: the line starts with `dd:dd:dd`. -/
def startsWithTimestamp (s : String) : Bool :=
  match s.data with
  | a :: b :: c :: d :: e :: f :: g :: h :: _ =>
      a.isDigit && b.isDigit && c == ':' && d.isDigit && e.isDigit &&
        f == ':' && g.isDigit && h.isDigit
  | _ => false

/-- JavaScript `s.split(/\s+/)`: split on maximal whitespace runs,
keeping an empty token at a leading or trailing run (`"".split` gives
`[""]`).  `acc` is the current token (reversed); `inSep` says the
previous character belonged to a whitespace run. -/
def jsSplitWsAux : List Char → List Char → Bool → List String
  | [], acc, _ => [String.mk acc.reverse]
  | c :: rest, acc, inSep =>
    if c.isWhitespace then
      if inSep then jsSplitWsAux rest acc true
      else String.mk acc.reverse :: jsSplitWsAux rest [] true
    else
      jsSplitWsAux rest (c :: acc) false

/-- `text.split(/\s+/).length`, the word count the service stores. -/
def countWordsJS (s : String) : Nat :=
  (jsSplitWsAux s.data [] false).length

/-! ## Dual-datastore router (`database.service.ts`) -/

/-- The request metadata `DatabaseService.isProductionRequest` inspects:
the `x-source-cluster` header and the network/host indicator fields. -/
structure ReqCtx where
  sourceCluster : Option String
  ip : Option String
  xForwardedFor : Option String
  xRealIp : Option String
  host : Option String
  xOriginSource : Option String
  remoteAddress : Option String
  deriving Repr, DecidableEq

/-- Anchored regex `/^P\.\d+\.\d+\.\d+$/` for a fixed first octet `first`:
the whole string is `first`.d+.d+.d+ . -/
def matchesAnchoredIp (first : String) (s : String) : Bool :=
  match splitOnChar '.' s with
  | [a, b, c, d] => a == first && isAllDigits b && isAllDigits c && isAllDigits d
  | _ => false

/-- The production-origin patterns of `DatabaseService`:
Tailscale `/^100\.\d+\.\d+\.\d+$/`, K8s `/^10\.\d+\.\d+\.\d+$/`,
`/orchestrator/i`, `/k8s/i`, tested against the joined indicator string. -/
def matchesProdPattern (indicatorStr : String) : Bool :=
  matchesAnchoredIp "100" indicatorStr ||
  matchesAnchoredIp "10" indicatorStr ||
  strContainsSub (strLower indicatorStr) "orchestrator" ||
  strContainsSub (strLower indicatorStr) "k8s"

/-- The space-joined, `filter(Boolean)`ed indicator list of
`isProductionRequest` (JS treats the empty string as falsy). -/
def indicatorString (r : ReqCtx) : String :=
  joinSep " "
    (([r.ip, r.xForwardedFor, r.xRealIp, r.host, r.xOriginSource,
       r.remoteAddress].filterMap id).filter (fun s => s ≠ ""))

/-- `DatabaseService.isProductionRequest`: the `x-source-cluster` header
values `k8s`/`production` force production; otherwise the IP/host
heuristics decide; default false (local). -/
def isProductionRequest (r : ReqCtx) : Bool :=
  if r.sourceCluster == some "k8s" || r.sourceCluster == some "production" then
    true
  else
    matchesProdPattern (indicatorString r)

/-- Which of the two stores an operation resolves to. -/
inductive StoreChoice
  | production
  | localStore
  deriving Repr, DecidableEq

/-- `DatabaseService.getConnection`: request absent → local store;
otherwise `isProductionRequest` decides. -/
def getConnection (req : Option ReqCtx) : StoreChoice :=
  match req with
  | none => .localStore
  | some r => if isProductionRequest r then .production else .localStore

/-! ## Audio download client (`python-youtube-downloader.service.ts`) -/

/-- Remote job status as reported by the Python download service. -/
inductive JobState
  | pending
  | downloading
  | completed
  | failed (err : Option String)
  deriving Repr, DecidableEq

/-- Outcome of one `GET /download/status/:jobId` call: a response, a
definitive 404 (job not found), or a transport-level failure. -/
inductive PollReply
  | respond (s : JobState)
  | notFound
  | transient (msg : String)
  deriving Repr, DecidableEq

/-- Collaborator outcomes for one `downloadAudio` run: the job-submit
result, the reply to the `i`-th status poll, and the artifact fetch
result. -/
structure DlEnv where
  startResult : Except String String
  poll : Nat → PollReply
  fetchResult : Except String String

/-- Result of a `downloadAudio` run: the value returned or error raised,
plus how many status calls and artifact fetches were issued. -/
structure DlRes where
  result : Except String String
  statusCalls : Nat
  fetchCalls : Nat
  deriving Repr

/-- `POLL_INTERVAL_MS` of `PythonYouTubeDownloaderService`. -/
def POLL_INTERVAL_MS : Nat := 2000

/-- `MAX_POLL_TIME_MS` of `PythonYouTubeDownloaderService`. -/
def MAX_POLL_TIME_MS : Nat := 600000

/-- `getDownloadStatus`: a 404 becomes `Download job <id> not found`,
any other axios error is rethrown as-is. -/
def getDownloadStatus (env : DlEnv) (jobId : String) (i : Nat) :
    Except String JobState :=
  match env.poll i with
  | .respond s => .ok s
  | .notFound => .error ("Download job " ++ jobId ++ " not found")
  | .transient m => .error m

/-- JavaScript `a || b` on an optional string (`''` is falsy). -/
def jsOrDefault (o : Option String) (d : String) : String :=
  match o with
  | some s => if s == "" then d else s
  | none => d

/-- The polling loop of `downloadAudio`, entered with `k` completed
sleep intervals, so wall-clock `elapsed = POLL_INTERVAL_MS * k` (status
and fetch calls are modelled as instantaneous; time advances only at
the 2-second sleep between polls). -/
def pollFrom (env : DlEnv) (jobId : String) (k : Nat) : DlRes :=
  if h : POLL_INTERVAL_MS * k > MAX_POLL_TIME_MS then
    ⟨.error ("Download timed out after " ++
        toString (MAX_POLL_TIME_MS / 1000) ++ " seconds"), 0, 0⟩
  else
    match getDownloadStatus env jobId k with
    | .error e => ⟨.error e, 1, 0⟩
    | .ok .completed =>
        match env.fetchResult with
        | .ok p => ⟨.ok p, 1, 1⟩
        | .error e => ⟨.error e, 1, 1⟩
    | .ok (.failed err) => ⟨.error (jsOrDefault err "Download failed"), 1, 0⟩
    | .ok .pending =>
        let r := pollFrom env jobId (k + 1)
        ⟨r.result, r.statusCalls + 1, r.fetchCalls⟩
    | .ok .downloading =>
        let r := pollFrom env jobId (k + 1)
        ⟨r.result, r.statusCalls + 1, r.fetchCalls⟩
termination_by 301 - k
decreasing_by
  all_goals
    simp [POLL_INTERVAL_MS, MAX_POLL_TIME_MS] at h
    omega

/-- `PythonYouTubeDownloaderService.downloadAudio`: submit the job, then
poll until completed/failed/timeout; on completed fetch the artifact
once. -/
def downloadAudio (env : DlEnv) : DlRes :=
  match env.startResult with
  | .error e => ⟨.error e, 0, 0⟩
  | .ok jobId => pollFrom env jobId 0

/-! ## Transcript entity and record store (`transcript.model.ts`)

MongoDB is modelled as a list of records plus a fresh-id counter.  The
schema declares `videoId` with `unique: true`, so an insert whose
`videoId` is already present in the collection — whatever the status of
the existing record — is rejected with a duplicate-key error. -/

/-- `status` enum of the transcript schema. -/
inductive TStatus
  | pending
  | pending_download
  | processing
  | completed
  | failed
  deriving Repr, DecidableEq

/-- A transcript document.  Timestamps are abstract `Nat` instants;
optional schema fields are `Option`. -/
structure TRec where
  id : Nat
  youtubeUrl : String
  videoId : String
  videoTitle : String
  videoDuration : Nat
  language : String
  status : TStatus
  progress : Nat
  transcript : String
  wordCount : Option Nat
  errorMessage : Option String
  provider : String
  audioFilePath : Option String
  createdDate : Nat
  completedDate : Option Nat
  deriving Repr, DecidableEq

/-- The collection plus the id generator. -/
structure Store where
  recs : List TRec
  nextId : Nat
  deriving Repr

/-- `Transcript.findById`. -/
def findById (s : Store) (i : Nat) : Option TRec :=
  s.recs.find? (fun r => r.id == i)

/-- The dedup query of `startTranscription`:
`findOne({videoId, status: {$in: ['completed','processing']}})`. -/
def findExisting (s : Store) (vid : String) : Option TRec :=
  s.recs.find? (fun r =>
    r.videoId == vid && (r.status == .completed || r.status == .processing))

/-- Mongoose `doc.save()`: replace the stored document with id `t.id`
by the in-memory document `t`. -/
def writeDoc (s : Store) (t : TRec) : Store :=
  { s with recs := s.recs.map (fun x => if x.id == t.id then t else x) }

/-- `findByIdAndUpdate(id, {status:'failed', errorMessage, progress:0})`,
the error write of both pipeline catch blocks (a missing id writes
nothing). -/
def failUpdate (s : Store) (i : Nat) (msg : String) : Store :=
  { s with recs := s.recs.map (fun x =>
      if x.id == i then
        { x with status := .failed, errorMessage := some msg, progress := 0 }
      else x) }

/-- `Transcript.create`: enforced by the schema's unique index on
`videoId` — any existing record with the same `videoId` (failed ones
included) makes the insert throw a duplicate-key error. -/
def insertRecord (s : Store) (r : TRec) : Except String Store :=
  if s.recs.any (fun x => x.videoId == r.videoId) then
    .error "E11000 duplicate key error on videoId"
  else
    .ok { recs := s.recs ++ [r], nextId := s.nextId + 1 }

/-- `Transcript.findByIdAndDelete`. -/
def deleteById (s : Store) (i : Nat) : Store :=
  { s with recs := s.recs.filter (fun r => r.id != i) }

/-! ## Orchestrator configuration and collaborator environment -/

/-- The slice of `serviceConfigs` the orchestrator branches on
(`youtubeApiConfigured` models whether `youtubeApiKey` is set, hence
whether `this.youtubeApi` is non-null). -/
structure Config where
  useMockTranscription : Bool
  transcriptionProvider : String
  transcriptionWorkflow : String
  youtubeApiConfigured : Bool
  cleanupTempFiles : Bool
  maxVideoLengthSeconds : Nat
  deriving Repr

/-- Which provider fields of `TranscriptionService` are non-null after
`initializeProviders`. -/
structure Providers where
  selfHosted : Bool
  google : Bool
  openai : Bool
  mock : Bool
  deriving Repr, DecidableEq

/-- `TranscriptionService.initializeProviders`: mock override wins and
initializes only the mock provider; otherwise exactly the configured
variant is initialized, defaulting to self-hosted for unknown names. -/
def initializeProviders (cfg : Config) : Providers :=
  if cfg.useMockTranscription then ⟨false, false, false, true⟩
  else if cfg.transcriptionProvider == "self-hosted" then ⟨true, false, false, false⟩
  else if cfg.transcriptionProvider == "google" then ⟨false, true, false, false⟩
  else if cfg.transcriptionProvider == "openai" then ⟨false, false, true, false⟩
  else if cfg.transcriptionProvider == "mock" then ⟨false, false, false, true⟩
  else ⟨true, false, false, false⟩

/-- `getVideoInfo`-style result. -/
structure VideoInfo where
  videoId : String
  title : String
  duration : Nat
  deriving Repr, DecidableEq

/-- Collaborator outcomes for one orchestrator run.  `apiInfo` is the
YouTube Data API lookup before the in-service duration check;
`pythonInfo` is the Python downloader `/info` call (which has no
duration check); `captionFetch` is the parsed timedtext fetch feeding
`downloadCaptions`; the remaining fields are the audio and
transcription collaborators. -/
structure Env where
  apiInfo : Except String VideoInfo
  pythonInfo : Except String VideoInfo
  captionFetch : Except String String
  downloadResult : Except String String
  convertResult : Except String String
  selfHostedResult : Except String String
  openaiResult : Except String String
  googleResult : Except String String
  mockTranscript : String
  fileExists : Bool
  streamDownload : Except String String

/-- A collaborator invocation, for counting who was called on a run. -/
inductive Call
  | videoInfoApi
  | videoInfoPython
  | captionFetch
  | audioDownload
  | audioConvert
  | transcribe (provider : String)
  deriving Repr, DecidableEq

/-- `useMock` as computed in `startTranscription`/`processTranscription`. -/
def useMockFlag (cfg : Config) : Bool :=
  cfg.useMockTranscription || cfg.transcriptionProvider == "mock"

/-- `YouTubeAPIService.downloadCaptions`: any fetch error is absorbed
into `null`; empty or whitespace-only caption data is `null`. -/
def downloadCaptions (fetch : Except String String) : Option String :=
  match fetch with
  | .error _ => none
  | .ok captionText =>
      if (strTrim captionText).length == 0 then none else some captionText

/-- `YouTubeAPIService.convertSRTToPlainText`: drop empty lines, pure
digit lines (`/^\d+$/`) and lines starting with a `dd:dd:dd` timestamp,
join the rest with spaces and trim. -/
def convertSRTToPlainText (srt : String) : String :=
  let textLines := (splitOnChar '\n' srt).filterMap (fun l =>
    let line := strTrim l
    if line == "" || isAllDigits line || startsWithTimestamp line then none
    else some line)
  strTrim (joinSep " " textLines)

/-- `YouTubeAPIService.getVideoInfo`: on a successful API response,
reject videos longer than `maxVideoLengthSeconds`. -/
def apiGetVideoInfo (cfg : Config) (env : Env) : Except String VideoInfo :=
  match env.apiInfo with
  | .error e => .error e
  | .ok vi =>
      if vi.duration > cfg.maxVideoLengthSeconds then
        .error ("Video duration (" ++ toString vi.duration ++
          "s) exceeds maximum allowed duration (" ++
          toString cfg.maxVideoLengthSeconds ++ "s)")
      else .ok vi

/-- Provider dispatch of `processTranscription` (step 3), in source
order; the mock override branch comes first. -/
def dispatchAuto (cfg : Config) (pv : Providers) (env : Env) :
    Except String String × List Call :=
  if cfg.useMockTranscription && pv.mock then
    (.ok env.mockTranscript, [.transcribe "mock"])
  else if cfg.transcriptionProvider == "self-hosted" && pv.selfHosted then
    (env.selfHostedResult, [.transcribe "self-hosted"])
  else if cfg.transcriptionProvider == "openai" && pv.openai then
    (env.openaiResult, [.transcribe "openai"])
  else if cfg.transcriptionProvider == "mock" && pv.mock then
    (.ok env.mockTranscript, [.transcribe "mock"])
  else if pv.google then (env.googleResult, [.transcribe "google"])
  else (.error "No transcription provider available", [])

/-- Provider dispatch of `processTranscriptionWithFile`: it has no
branch for the mock provider at all. -/
def dispatchManual (cfg : Config) (pv : Providers) (env : Env) :
    Except String String × List Call :=
  if cfg.transcriptionProvider == "self-hosted" && pv.selfHosted then
    (env.selfHostedResult, [.transcribe "self-hosted"])
  else if cfg.transcriptionProvider == "openai" && pv.openai then
    (env.openaiResult, [.transcribe "openai"])
  else if pv.google then (env.googleResult, [.transcribe "google"])
  else (.error "No transcription provider available", [])

/-- The `finally` cleanup of `processTranscription`: with the cleanup
flag on, delete the downloaded file and, if distinct, the converted
file (`deleteAudioFile` itself never throws). -/
def cleanupPaths (cfg : Config) (ap cp : Option String) : List String :=
  if cfg.cleanupTempFiles then
    (match ap with
     | some a => [a]
     | none => []) ++
    (match cp, ap with
     | some c, some a => if c ≠ a then [c] else []
     | some c, none => [c]
     | none, _ => [])
  else []

/-- The `finally` cleanup of `processTranscriptionWithFile`: only the
converted file, and only when distinct from the supplied audio file. -/
def cleanupManual (cfg : Config) (audioPath : String) (cp : Option String) :
    List String :=
  if cfg.cleanupTempFiles then
    match cp with
    | some c => if c ≠ audioPath then [c] else []
    | none => []
  else []

/-- Result of a detached pipeline task: the store after its writes, the
collaborator calls it made, and the temp files it deleted.  The task
never re-throws: every exception ends in the catch block's
`failUpdate`. -/
structure PipeResult where
  store : Store
  calls : List Call
  deleted : List String
  deriving Repr

/-- Steps 3–4 of `processTranscription`: transcribe with the dispatched
provider, then persist text/wordCount/completed/100/completedDate; a
provider error falls to the catch block. -/
def finishTranscription (cfg : Config) (pv : Providers) (env : Env)
    (now : Nat) (s : Store) (t : TRec) (calls : List Call)
    (ap cp : Option String) : PipeResult :=
  match dispatchAuto cfg pv env with
  | (.error e, dc) => ⟨failUpdate s t.id e, calls ++ dc, cleanupPaths cfg ap cp⟩
  | (.ok text, dc) =>
      let t4 := { t with progress := 90 }
      let s4 := writeDoc s t4
      let t5 :=
        { t4 with
          transcript := text,
          wordCount := some (countWordsJS text),
          status := .completed, progress := 100,
          completedDate := some now }
      ⟨writeDoc s4 t5, calls ++ dc, cleanupPaths cfg ap cp⟩

/-- Steps 1–2 of `processTranscription` after the caption attempt: in
mock mode skip download/convert (progress 50), otherwise download
(progress 30, remember `audioFilePath`) and convert (progress 50);
stage errors fall to the catch block. -/
def audioStage (cfg : Config) (pv : Providers) (env : Env) (now : Nat)
    (s1 : Store) (t1 : TRec) (calls : List Call) : PipeResult :=
  if useMockFlag cfg then
    let t2 := { t1 with progress := 50 }
    finishTranscription cfg pv env now (writeDoc s1 t2) t2 calls none none
  else
    match env.downloadResult with
    | .error e =>
        ⟨failUpdate s1 t1.id e, calls ++ [.audioDownload],
         cleanupPaths cfg none none⟩
    | .ok ap =>
        let t2 := { t1 with progress := 30, audioFilePath := some ap }
        let s2 := writeDoc s1 t2
        match env.convertResult with
        | .error e =>
            ⟨failUpdate s2 t1.id e, calls ++ [.audioDownload, .audioConvert],
             cleanupPaths cfg (some ap) none⟩
        | .ok cp =>
            let t3 := { t2 with progress := 50 }
            finishTranscription cfg pv env now (writeDoc s2 t3) t3
              (calls ++ [.audioDownload, .audioConvert]) (some ap) (some cp)

/-- `TranscriptionService.processTranscription` (the auto-mode detached
pipeline task).  A missing id throws `Transcript not found`, which the
catch block's `findByIdAndUpdate` then silently no-ops on.  The
best-effort `autoCreateQuestion` side effect after completion absorbs
all its errors and touches none of the fields modelled here, so it is
not modelled. -/
def processTranscription (cfg : Config) (pv : Providers) (env : Env)
    (now : Nat) (s : Store) (i : Nat) : PipeResult :=
  match findById s i with
  | none => ⟨s, [], []⟩
  | some t0 =>
      let t1 := { t0 with status := .processing, progress := 10 }
      let s1 := writeDoc s t1
      if !useMockFlag cfg && cfg.youtubeApiConfigured then
        match downloadCaptions env.captionFetch with
        | some ct =>
            let plainText := convertSRTToPlainText ct
            if plainText.length > 0 then
              let t2 :=
                { t1 with
                  transcript := plainText,
                  wordCount := some (countWordsJS plainText),
                  status := .completed, progress := 100,
                  completedDate := some now,
                  provider := "youtube-api-captions" }
              ⟨writeDoc s1 t2, [.captionFetch], cleanupPaths cfg none none⟩
            else audioStage cfg pv env now s1 t1 [.captionFetch]
        | none => audioStage cfg pv env now s1 t1 [.captionFetch]
      else audioStage cfg pv env now s1 t1 []

/-! ## Submission (`startTranscription`) -/

/-- The mock-mode video-id extraction `url.match(/[?&]v=([^&]+)/)`:
scan for `?v=` or `&v=` followed by at least one non-`&` character. -/
def extractVParam : List Char → Option String
  | [] => none
  | c :: rest =>
      if (c == '?' || c == '&') && listStartsWith rest ['v', '='] &&
          ((rest.drop 2).takeWhile (· ≠ '&') ≠ []) then
        some (String.mk ((rest.drop 2).takeWhile (· ≠ '&')))
      else extractVParam rest

/-- Outcome of `startTranscription`: the returned id or thrown error,
the store afterwards, the collaborator calls made, and whether a
detached auto-mode pipeline task was launched. -/
structure SubmitRes where
  result : Except String Nat
  store : Store
  calls : List Call
  launched : Bool
  deriving Repr

/-- Steps 2–4 of `startTranscription` once video info is resolved:
dedup against completed/processing records, create the record in
`pending` (auto) or `pending_download` (manual), and in auto mode
launch the detached pipeline. -/
def afterInfo (cfg : Config) (now : Nat) (s : Store) (url lang : String)
    (vi : VideoInfo) (calls : List Call) : SubmitRes :=
  let isManual := cfg.transcriptionWorkflow == "manual_download"
  match findExisting s vi.videoId with
  | some ex => ⟨.ok ex.id, s, calls, false⟩
  | none =>
      let newRec : TRec :=
        { id := s.nextId,
          youtubeUrl := url,
          videoId := vi.videoId,
          videoTitle := vi.title,
          videoDuration := vi.duration,
          language := lang,
          status := if isManual then .pending_download else .pending,
          progress := 0, transcript := "", wordCount := none,
          errorMessage := none,
          provider := cfg.transcriptionProvider,
          audioFilePath := none,
          createdDate := now, completedDate := none }
      match insertRecord s newRec with
      | .error e => ⟨.error e, s, calls, false⟩
      | .ok s' => ⟨.ok s.nextId, s', calls, !isManual⟩

/-- Step 1 of `startTranscription`: resolve video info and record which
collaborators were called doing so.  Mock mode extracts the id from the
URL without any call; otherwise the YouTube API is used when
configured, with a yt-dlp (Python downloader) fallback in auto mode —
note the fallback also swallows the API's duration-ceiling error — and
no fallback in `manual_download` mode; without an API key the Python
downloader is used directly (auto) or submission is rejected
(manual). -/
def resolveVideoInfo (cfg : Config) (env : Env) (now : Nat) (url : String) :
    Except String VideoInfo × List Call :=
  let isManual := cfg.transcriptionWorkflow == "manual_download"
  if useMockFlag cfg then
    let vid := (extractVParam url.data).getD ("mock-" ++ toString now)
    (.ok ⟨vid, "Mock Video", 300⟩, [])
  else if cfg.youtubeApiConfigured then
    match apiGetVideoInfo cfg env with
    | .ok vi => (.ok vi, [.videoInfoApi])
    | .error e =>
        if isManual then
          (.error ("YouTube API failed to get video info: " ++ e ++
            ". Please check YOUTUBE_API_KEY is configured."),
           [.videoInfoApi])
        else
          match env.pythonInfo with
          | .ok vi => (.ok vi, [.videoInfoApi, .videoInfoPython])
          | .error e2 => (.error e2, [.videoInfoApi, .videoInfoPython])
  else
    if isManual then
      (.error "YouTube API is required for manual_download mode.", [])
    else
      match env.pythonInfo with
      | .ok vi => (.ok vi, [.videoInfoPython])
      | .error e => (.error e, [.videoInfoPython])

/-- The body of `startTranscription` before its outer catch. -/
def submitCore (cfg : Config) (env : Env) (now : Nat) (s : Store)
    (url lang : String) : SubmitRes :=
  match resolveVideoInfo cfg env now url with
  | (.ok vi, calls) => afterInfo cfg now s url lang vi calls
  | (.error e, calls) => ⟨.error e, s, calls, false⟩

/-- `TranscriptionService.startTranscription`: the outer catch wraps
every thrown error as `Failed to start transcription: <cause>`. -/
def startTranscription (cfg : Config) (env : Env) (now : Nat) (s : Store)
    (url lang : String) : SubmitRes :=
  match submitCore cfg env now s url lang with
  | ⟨.error e, st, calls, launched⟩ =>
      ⟨.error ("Failed to start transcription: " ++ e), st, calls, launched⟩
  | r => r

/-! ## Manual entry (`processWithAudioFile`, `processTranscriptionWithFile`),
`resetTranscript`, `deleteTranscript` -/

/-- Outcome of `processWithAudioFile` (the synchronous part). -/
structure ManualRes where
  success : Bool
  errMsg : Option String
  store : Store
  launched : Bool
  actualPath : String
  deriving Repr

/-- The audio-path resolution of `processWithAudioFile`: use the local
file when it exists (same-host shortcut), else download from the
stream URL when one is supplied, else reject a non-empty missing path
(an empty path with no stream URL falls through unchanged, as in the
JavaScript). -/
def resolveAudioPath (env : Env) (audioFilePath : String)
    (audioStreamUrl : Option String) : Except String String :=
  if audioFilePath ≠ "" && env.fileExists then .ok audioFilePath
  else
    match audioStreamUrl with
    | some _ =>
        (match env.streamDownload with
         | .ok p => .ok p
         | .error e => .error ("Failed to download audio: " ++ e))
    | none =>
        if audioFilePath ≠ "" then
          .error ("Audio file not found: " ++ audioFilePath)
        else .ok audioFilePath

/-- `TranscriptionService.processWithAudioFile`: only valid on
`pending_download`; resolve the audio path, mark processing/10 with the
path, and launch the detached file pipeline. -/
def processWithAudioFile (env : Env) (s : Store) (i : Nat)
    (audioFilePath : String) (audioStreamUrl : Option String) : ManualRes :=
  match findById s i with
  | none => ⟨false, some "Transcript not found", s, false, ""⟩
  | some t =>
      if t.status ≠ .pending_download then
        ⟨false, some "Transcript is not in pending_download status", s,
         false, ""⟩
      else
        match resolveAudioPath env audioFilePath audioStreamUrl with
        | .error e => ⟨false, some e, s, false, ""⟩
        | .ok actual =>
            let t1 :=
              { t with
                status := .processing, progress := 10,
                audioFilePath := some actual }
            ⟨true, none, writeDoc s t1, true, actual⟩

/-- `TranscriptionService.processTranscriptionWithFile` (the manual
detached pipeline task): convert, progress 50, dispatch (no mock
branch), progress 90, then completion write; errors fall to the catch
block's `failUpdate`. -/
def processTranscriptionWithFile (cfg : Config) (pv : Providers)
    (env : Env) (now : Nat) (s : Store) (i : Nat) (audioFilePath : String) :
    PipeResult :=
  match findById s i with
  | none => ⟨s, [], []⟩
  | some t =>
      match env.convertResult with
      | .error e =>
          ⟨failUpdate s i e, [.audioConvert], cleanupManual cfg audioFilePath none⟩
      | .ok cp =>
          let t1 := { t with progress := 50 }
          let s1 := writeDoc s t1
          match dispatchManual cfg pv env with
          | (.error e, dc) =>
              ⟨failUpdate s1 i e, [.audioConvert] ++ dc,
               cleanupManual cfg audioFilePath (some cp)⟩
          | (.ok text, dc) =>
              let t2 := { t1 with progress := 90 }
              let s2 := writeDoc s1 t2
              let t3 :=
                { t2 with
                  transcript := text,
                  wordCount := some (countWordsJS text),
                  status := .completed, progress := 100,
                  completedDate := some now }
              ⟨writeDoc s2 t3, [.audioConvert] ++ dc,
               cleanupManual cfg audioFilePath (some cp)⟩

/-- Outcome of `resetTranscript`. -/
structure ResetRes where
  success : Bool
  errMsg : Option String
  store : Store
  deriving Repr

/-- `TranscriptionService.resetTranscript`: rewind to
`pending_download`, progress 0, `errorMessage = ''` (the empty string —
the field stays present), unset `audioFilePath`.  `completedDate` and
`transcript` are left untouched. -/
def resetTranscript (s : Store) (i : Nat) : ResetRes :=
  match findById s i with
  | none => ⟨false, some "Transcript not found", s⟩
  | some t =>
      let t1 :=
        { t with
          status := .pending_download, progress := 0,
          errorMessage := some "", audioFilePath := none }
      ⟨true, none, writeDoc s t1⟩

/-- `TranscriptionService.deleteTranscript`. -/
def deleteTranscript (s : Store) (i : Nat) : Bool × Store :=
  match findById s i with
  | none => (false, s)
  | some _ => (true, deleteById s i)

/-! ## Whole-step operations for reachability

The pipeline task is detached, but it is launched exactly once, right
after its record is created (auto mode) or marked processing (manual
trigger), and it only ever writes to that record.  In a sequential
interleaving model, running it atomically with its launcher therefore
reaches the same set of final stores. -/

/-- `submit` followed by the auto-mode pipeline it launches. -/
def submitStep (cfg : Config) (env : Env) (now : Nat) (url lang : String)
    (s : Store) : Store :=
  let r := startTranscription cfg env now s url lang
  if r.launched then
    match r.result with
    | .ok i =>
        (processTranscription cfg (initializeProviders cfg) env now r.store i).store
    | .error _ => r.store
  else r.store

/-- `processWithAudioFile` followed by the manual pipeline it launches. -/
def processFileStep (cfg : Config) (env : Env) (now : Nat) (i : Nat)
    (path : String) (streamUrl : Option String) (s : Store) : Store :=
  let r := processWithAudioFile env s i path streamUrl
  if r.launched then
    (processTranscriptionWithFile cfg (initializeProviders cfg) env now
      r.store i r.actualPath).store
  else r.store

/-- `resetTranscript` as a store step. -/
def resetStep (i : Nat) (s : Store) : Store := (resetTranscript s i).store

/-- `deleteTranscript` as a store step. -/
def deleteStep (i : Nat) (s : Store) : Store := (deleteTranscript s i).2

/-- Stores reachable from the empty store by submissions, manual
processing and deletions — every core operation except `reset` (status
and transcript queries do not write). -/
inductive ReachableNR (cfg : Config) : Store → Prop
  | empty : ReachableNR cfg ⟨[], 0⟩
  | submit (env : Env) (now : Nat) (url lang : String) {s : Store} :
      ReachableNR cfg s → ReachableNR cfg (submitStep cfg env now url lang s)
  | processFile (env : Env) (now i : Nat) (path : String)
      (streamUrl : Option String) {s : Store} :
      ReachableNR cfg s →
      ReachableNR cfg (processFileStep cfg env now i path streamUrl s)
  | del (i : Nat) {s : Store} :
      ReachableNR cfg s → ReachableNR cfg (deleteStep i s)

/-- The §3 per-record invariant claimed by the spec:
`completedAt` non-null ⇔ completed, `errorMessage` non-null ⇔ failed. -/
def RecOK (r : TRec) : Prop :=
  (r.completedDate ≠ none ↔ r.status = .completed) ∧
  (r.errorMessage ≠ none ↔ r.status = .failed)

instance (r : TRec) : Decidable (RecOK r) := by
  unfold RecOK
  infer_instance

/-- The §3 entity invariant over a whole store. -/
def RecordInvariant (s : Store) : Prop :=
  ∀ r ∈ s.recs, RecOK r

instance (s : Store) : Decidable (RecordInvariant s) := by
  unfold RecordInvariant
  infer_instance

/-- Every record with id `i` still has `completedDate` and
`errorMessage` unset (true of a freshly created record, and preserved
by the pipeline's intermediate writes). -/
def FreshAt (s : Store) (i : Nat) : Prop :=
  ∀ r ∈ s.recs, r.id = i → r.completedDate = none ∧ r.errorMessage = none

/-- All stored ids are below the generator. -/
def IdsBounded (s : Store) : Prop :=
  ∀ r ∈ s.recs, r.id < s.nextId

/-- Stored ids are pairwise distinct. -/
def IdsNodup (s : Store) : Prop :=
  (s.recs.map (·.id)).Nodup

/-- The inductive invariant: id discipline plus the §3 field
equivalences. -/
def GoodStore (s : Store) : Prop :=
  IdsBounded s ∧ IdsNodup s ∧ RecordInvariant s

/-! ## Concrete fixtures used by witnesses and counterexamples -/

/-- Auto-mode deployment: self-hosted provider, YouTube API key set,
default 2-hour ceiling, cleanup on. -/
def cfgAuto : Config := ⟨false, "self-hosted", "auto", true, true, 7200⟩

/-- Manual-download deployment with the mock override flag set. -/
def cfgMockManual : Config := ⟨true, "self-hosted", "manual_download", true, true, 7200⟩

/-- A collaborator environment whose caption fetch returns usable text. -/
def envCaptions : Env :=
  ⟨.ok ⟨"v1", "T", 300⟩, .ok ⟨"v1", "T", 300⟩, .ok "hello world",
   .ok "a.mp3", .ok "a.wav", .ok "sh text", .error "off", .error "off",
   "mock words", true, .error "off"⟩

/-- A collaborator environment whose caption fetch returns `"42"` — a
non-empty caption whose SRT-to-plain-text conversion is empty. -/
def envDigitCaptions : Env :=
  ⟨.ok ⟨"v1", "T", 300⟩, .ok ⟨"v1", "T", 300⟩, .ok "42",
   .ok "a.mp3", .ok "a.wav", .ok "sh text", .error "off", .error "off",
   "mock words", true, .error "off"⟩

/-- An environment for an over-long video: both lookups report duration
8000 s. -/
def envLongVideo : Env :=
  ⟨.ok ⟨"v1", "T", 8000⟩, .ok ⟨"v1", "T", 8000⟩, .error "no captions",
   .ok "a.mp3", .ok "a.wav", .ok "sh text", .error "off", .error "off",
   "mock words", true, .error "off"⟩

/-- A completed record for video `v1` (id 3). -/
def recCompleted : TRec :=
  { id := 3, youtubeUrl := "u", videoId := "v1", videoTitle := "T",
    videoDuration := 300, language := "en", status := .completed,
    progress := 100, transcript := "done", wordCount := some 1,
    errorMessage := none, provider := "self-hosted",
    audioFilePath := none, createdDate := 1, completedDate := some 2 }

/-- A store holding one completed record for video `v1`. -/
def storeCompleted : Store := ⟨[recCompleted], 4⟩

/-- A failed record for video `v1` (id 3). -/
def recFailed : TRec :=
  { id := 3, youtubeUrl := "u", videoId := "v1", videoTitle := "T",
    videoDuration := 300, language := "en", status := .failed,
    progress := 0, transcript := "", wordCount := none,
    errorMessage := some "boom", provider := "self-hosted",
    audioFilePath := none, createdDate := 1, completedDate := none }

/-- A store holding one failed record for video `v1`. -/
def storeFailed : Store := ⟨[recFailed], 4⟩

/-- A `pending_download` record for video `v1` (id 0). -/
def recPendingDl : TRec :=
  { id := 0, youtubeUrl := "u", videoId := "v1", videoTitle := "T",
    videoDuration := 300, language := "en", status := .pending_download,
    progress := 0, transcript := "", wordCount := none,
    errorMessage := none, provider := "self-hosted",
    audioFilePath := none, createdDate := 1, completedDate := none }

/-- A store holding one `pending_download` record for video `v1`. -/
def storePendingDl : Store := ⟨[recPendingDl], 1⟩

/-- A `pending` record for video `v1` (id 0), as created by an
auto-mode submission. -/
def recPending : TRec :=
  { id := 0, youtubeUrl := "u", videoId := "v1", videoTitle := "T",
    videoDuration := 300, language := "en", status := .pending,
    progress := 0, transcript := "", wordCount := none,
    errorMessage := none, provider := "self-hosted",
    audioFilePath := none, createdDate := 1, completedDate := none }

/-- A store holding one `pending` record for video `v1`. -/
def storePending : Store := ⟨[recPending], 1⟩

/-- An environment with no captions and a failing audio download. -/
def envDlFail : Env :=
  ⟨.ok ⟨"v1", "T", 300⟩, .ok ⟨"v1", "T", 300⟩, .error "no captions",
   .error "network down", .ok "a.wav", .ok "sh text", .error "off",
   .error "off", "mock words", true, .error "off"⟩

/-- The downloader environment of the §8 scenario: `downloading` for 2
polls, then `completed`. -/
def dlEnvTwoPolls : DlEnv :=
  ⟨.ok "job1",
   fun i => if i < 2 then .respond .downloading else .respond .completed,
   .ok "p.mp3"⟩

/-- A downloader remote that never finishes. -/
def dlEnvNever : DlEnv :=
  ⟨.ok "job1", fun _ => .respond .downloading, .ok "p.mp3"⟩

/-- A remote that reports `downloading` for 301 polls and `completed`
from the 302nd status call on — one poll beyond the 10-minute budget. -/
def dlEnvSlow : DlEnv :=
  ⟨.ok "job1",
   fun i => if i < 301 then .respond .downloading else .respond .completed,
   .ok "p.mp3"⟩

/-- A remote whose first status call fails transiently and which would
report `completed` from the next poll on. -/
def dlEnvTransient : DlEnv :=
  ⟨.ok "job1",
   fun i => if i == 0 then .transient "ECONNRESET" else .respond .completed,
   .ok "p.mp3"⟩

/-- A request carrying the source-cluster header with a non-production
value together with a K8s-internal peer address. -/
def reqLocalHeaderProdIp : ReqCtx :=
  ⟨some "local", some "10.0.0.1", none, none, none, none, none⟩

/-! ## Store lemmas -/

theorem findById_mem {s : Store} {i : Nat} {r : TRec}
    (h : findById s i = some r) : r ∈ s.recs :=
  List.mem_of_find?_eq_some h

theorem findById_id {s : Store} {i : Nat} {r : TRec}
    (h : findById s i = some r) : r.id = i := by
  have := List.find?_some h
  exact beq_iff_eq.mp this

theorem writeDoc_apply_id (t x : TRec) :
    (if x.id == t.id then t else x).id = x.id := by
  split
  · next h => exact (beq_iff_eq.mp h).symm
  · rfl

theorem failUpdate_apply_id (j : Nat) (m : String) (x : TRec) :
    (if x.id == j then
       { x with status := TStatus.failed, errorMessage := some m,
                progress := 0 }
     else x).id = x.id := by
  split <;> rfl

theorem findById_writeDoc (s : Store) (t : TRec) (i : Nat) :
    findById (writeDoc s t) i =
      (findById s i).map (fun x => if x.id == t.id then t else x) := by
  unfold findById writeDoc
  rw [List.find?_map]
  have hp : ((fun r : TRec => r.id == i) ∘
      fun x => if x.id == t.id then t else x) =
      (fun r : TRec => r.id == i) := by
    funext x
    simp only [Function.comp_apply]
    rw [writeDoc_apply_id]
  rw [hp]

theorem findById_failUpdate (s : Store) (j : Nat) (m : String) (i : Nat) :
    findById (failUpdate s j m) i =
      (findById s i).map (fun x =>
        if x.id == j then
          { x with status := TStatus.failed, errorMessage := some m,
                   progress := 0 }
        else x) := by
  unfold findById failUpdate
  rw [List.find?_map]
  have hp : ((fun r : TRec => r.id == i) ∘
      fun x => if x.id == j then
        { x with status := TStatus.failed, errorMessage := some m,
                 progress := 0 }
      else x) =
      (fun r : TRec => r.id == i) := by
    funext x
    simp only [Function.comp_apply]
    rw [failUpdate_apply_id]
  rw [hp]

theorem recsMap_id_writeDoc (s : Store) (t : TRec) :
    (writeDoc s t).recs.map (·.id) = s.recs.map (·.id) := by
  unfold writeDoc
  rw [List.map_map]
  exact List.map_congr_left (fun x _ => writeDoc_apply_id t x)

theorem recsMap_id_failUpdate (s : Store) (j : Nat) (m : String) :
    (failUpdate s j m).recs.map (·.id) = s.recs.map (·.id) := by
  unfold failUpdate
  rw [List.map_map]
  exact List.map_congr_left (fun x _ => failUpdate_apply_id j m x)

theorem mem_writeDoc {s : Store} {t r' : TRec}
    (h : r' ∈ (writeDoc s t).recs) : r' ∈ s.recs ∨ r' = t := by
  unfold writeDoc at h
  rcases List.mem_map.mp h with ⟨x, hx, hfx⟩
  split at hfx
  · right; exact hfx.symm
  · left; rw [← hfx]; exact hx

theorem mem_failUpdate {s : Store} {j : Nat} {m : String} {r' : TRec}
    (h : r' ∈ (failUpdate s j m).recs) :
    r' ∈ s.recs ∨
    ∃ x ∈ s.recs, x.id = j ∧
      r' = { x with status := TStatus.failed, errorMessage := some m,
                    progress := 0 } := by
  unfold failUpdate at h
  rcases List.mem_map.mp h with ⟨x, hx, hfx⟩
  split at hfx
  · next hid =>
      right
      exact ⟨x, hx, beq_iff_eq.mp hid, hfx.symm⟩
  · left; rw [← hfx]; exact hx

theorem idsBounded_of_map_eq {s s' : Store}
    (hmap : s'.recs.map (·.id) = s.recs.map (·.id))
    (hnext : s'.nextId = s.nextId) (hb : IdsBounded s) : IdsBounded s' := by
  intro r hr
  have hmem : r.id ∈ s'.recs.map (·.id) := List.mem_map_of_mem _ hr
  rw [hmap] at hmem
  rcases List.mem_map.mp hmem with ⟨x, hx, hxid⟩
  rw [hnext, ← hxid]
  exact hb x hx

theorem goodStore_writeDoc {s : Store} {t : TRec} (hg : GoodStore s)
    (ht : RecOK t) : GoodStore (writeDoc s t) := by
  obtain ⟨hb, hn, hi⟩ := hg
  refine ⟨idsBounded_of_map_eq (recsMap_id_writeDoc s t) rfl hb, ?_, ?_⟩
  · unfold IdsNodup
    rw [recsMap_id_writeDoc]
    exact hn
  · intro r hr
    rcases mem_writeDoc hr with hold | rfl
    · exact hi r hold
    · exact ht

theorem goodStore_failUpdate {s : Store} {j : Nat} {m : String}
    (hg : GoodStore s) (hfresh : FreshAt s j) :
    GoodStore (failUpdate s j m) := by
  obtain ⟨hb, hn, hi⟩ := hg
  refine ⟨idsBounded_of_map_eq (recsMap_id_failUpdate s j m) rfl hb, ?_, ?_⟩
  · unfold IdsNodup
    rw [recsMap_id_failUpdate]
    exact hn
  · intro r hr
    rcases mem_failUpdate hr with hold | ⟨x, hx, hxid, rfl⟩
    · exact hi r hold
    · obtain ⟨hcd, _⟩ := hfresh x hx hxid
      constructor
      · simp [hcd]
      · simp

theorem freshAt_writeDoc {s : Store} {t : TRec} {i : Nat}
    (hf : FreshAt s i)
    (ht : t.id = i → t.completedDate = none ∧ t.errorMessage = none) :
    FreshAt (writeDoc s t) i := by
  intro r hr hid
  rcases mem_writeDoc hr with hold | rfl
  · exact hf r hold hid
  · exact ht hid

theorem freshAt_of_findById {s : Store} {i : Nat} {t : TRec}
    (hn : IdsNodup s) (h : findById s i = some t)
    (hcd : t.completedDate = none) (hem : t.errorMessage = none) :
    FreshAt s i := by
  intro r hr hid
  have hrt : r = t := by
    refine List.inj_on_of_nodup_map hn hr (findById_mem h) ?_
    rw [hid, findById_id h]
  rw [hrt]
  exact ⟨hcd, hem⟩

/-! ## The pipeline tasks preserve the store invariant -/

theorem finishTranscription_good (cfg : Config) (pv : Providers)
    (env : Env) (now : Nat) {s : Store} {t : TRec} (calls : List Call)
    (ap cp : Option String) (hg : GoodStore s) (hfresh : FreshAt s t.id)
    (hcd : t.completedDate = none) (hem : t.errorMessage = none)
    (hsc : t.status ≠ .completed) (hsf : t.status ≠ .failed) :
    GoodStore (finishTranscription cfg pv env now s t calls ap cp).store := by
  unfold finishTranscription
  rcases hda : dispatchAuto cfg pv env with ⟨res, dc⟩
  cases res with
  | error e =>
      simp only [hda]
      exact goodStore_failUpdate hg hfresh
  | ok text =>
      simp only [hda]
      have h4 : RecOK { t with progress := 90 } := by
        constructor <;> simp [hcd, hem, hsc, hsf]
      have h5 : RecOK
          { t with
            progress := 100, transcript := text,
            wordCount := some (countWordsJS text),
            status := TStatus.completed, completedDate := some now } := by
        constructor <;> simp [hem]
      exact goodStore_writeDoc (goodStore_writeDoc hg h4) h5

theorem audioStage_good (cfg : Config) (pv : Providers) (env : Env)
    (now : Nat) (s1 : Store) (t1 : TRec) (calls : List Call)
    (hg : GoodStore s1) (hfresh : FreshAt s1 t1.id)
    (hcd : t1.completedDate = none) (hem : t1.errorMessage = none)
    (hsc : t1.status ≠ .completed) (hsf : t1.status ≠ .failed) :
    GoodStore (audioStage cfg pv env now s1 t1 calls).store := by
  unfold audioStage
  split
  · -- mock mode: progress 50 then transcription
    have h2 : RecOK { t1 with progress := 50 } := by
      constructor <;> simp [hcd, hem, hsc, hsf]
    exact finishTranscription_good cfg pv env now calls none none
      (goodStore_writeDoc hg h2)
      (freshAt_writeDoc hfresh fun _ => ⟨hcd, hem⟩) hcd hem hsc hsf
  · rcases hdr : env.downloadResult with e | ap
    · simp only [hdr]
      exact goodStore_failUpdate hg hfresh
    · simp only [hdr]
      have h2 : RecOK { t1 with progress := 30, audioFilePath := some ap } := by
        constructor <;> simp [hcd, hem, hsc, hsf]
      have hg2 := goodStore_writeDoc hg h2
      have hf2 : FreshAt
          (writeDoc s1 { t1 with progress := 30, audioFilePath := some ap })
          t1.id :=
        freshAt_writeDoc hfresh fun _ => ⟨hcd, hem⟩
      rcases hcv : env.convertResult with e | cp
      · simp only [hcv]
        exact goodStore_failUpdate hg2 hf2
      · simp only [hcv]
        have h3 : RecOK
            { t1 with progress := 50, audioFilePath := some ap } := by
          constructor <;> simp [hcd, hem, hsc, hsf]
        exact finishTranscription_good cfg pv env now _ _ _
          (goodStore_writeDoc hg2 h3)
          (freshAt_writeDoc hf2 fun _ => ⟨hcd, hem⟩) hcd hem hsc hsf

theorem processTranscription_good (cfg : Config) (pv : Providers)
    (env : Env) (now : Nat) {s : Store} (i : Nat) (hg : GoodStore s)
    (hfresh : FreshAt s i) :
    GoodStore (processTranscription cfg pv env now s i).store := by
  unfold processTranscription
  rcases hfb : findById s i with _ | t0
  · simp only [hfb]
    exact hg
  · simp only [hfb]
    have hid : t0.id = i := findById_id hfb
    obtain ⟨hcd, hem⟩ := hfresh t0 (findById_mem hfb) hid
    have h1 : RecOK { t0 with status := TStatus.processing, progress := 10 } := by
      constructor <;> simp [hcd, hem]
    have hg1 := goodStore_writeDoc hg h1
    have hf1 : FreshAt
        (writeDoc s { t0 with status := TStatus.processing, progress := 10 })
        i := freshAt_writeDoc hfresh fun _ => ⟨hcd, hem⟩
    have hf1' : FreshAt
        (writeDoc s { t0 with status := TStatus.processing, progress := 10 })
        ({ t0 with status := TStatus.processing, progress := 10 } : TRec).id := by
      simpa [hid] using hf1
    have haudio := fun calls => audioStage_good cfg pv env now
        (writeDoc s { t0 with status := TStatus.processing, progress := 10 })
        { t0 with status := TStatus.processing, progress := 10 }
        calls hg1 hf1' hcd hem (by simp) (by simp)
    split
    · rcases hdc : downloadCaptions env.captionFetch with _ | ct
      · simp only [hdc]
        exact haudio _
      · simp only [hdc]
        split
        · have h2 : RecOK
              { t0 with
                transcript := convertSRTToPlainText ct,
                wordCount := some (countWordsJS (convertSRTToPlainText ct)),
                status := TStatus.completed, progress := 100,
                completedDate := some now,
                provider := "youtube-api-captions" } := by
            constructor <;> simp [hem]
          exact goodStore_writeDoc hg1 h2
        · exact haudio _
    · exact haudio _

theorem processTranscriptionWithFile_good (cfg : Config) (pv : Providers)
    (env : Env) (now : Nat) {s : Store} (i : Nat) (path : String)
    (hg : GoodStore s) (hfresh : FreshAt s i) :
    GoodStore (processTranscriptionWithFile cfg pv env now s i path).store := by
  unfold processTranscriptionWithFile
  rcases hfb : findById s i with _ | t
  · simp only [hfb]
    exact hg
  · simp only [hfb]
    have hid : t.id = i := findById_id hfb
    obtain ⟨hcd, hem⟩ := hfresh t (findById_mem hfb) hid
    have hok := hg.2.2 t (findById_mem hfb)
    have hsc : t.status ≠ .completed := fun hc => by
      have := hok.1.mpr hc
      exact this hcd
    have hsf : t.status ≠ .failed := fun hf => by
      have := hok.2.mpr hf
      exact this hem
    rcases hcv : env.convertResult with e | cp
    · simp only [hcv]
      exact goodStore_failUpdate hg hfresh
    · simp only [hcv]
      have h1 : RecOK { t with progress := 50 } := by
        constructor <;> simp [hcd, hem, hsc, hsf]
      have hg1 := goodStore_writeDoc hg h1
      have hf1 : FreshAt (writeDoc s { t with progress := 50 }) i :=
        freshAt_writeDoc hfresh (by rw [hid]; exact fun _ => ⟨hcd, hem⟩)
      rcases hdm : dispatchManual cfg pv env with ⟨res, dc⟩
      cases res with
      | error e =>
          simp only [hdm]
          exact goodStore_failUpdate hg1 hf1
      | ok text =>
          simp only [hdm]
          have h2 : RecOK { t with progress := 90 } := by
            constructor <;> simp [hcd, hem, hsc, hsf]
          have h3 : RecOK
              { t with
                progress := 100, transcript := text,
                wordCount := some (countWordsJS text),
                status := TStatus.completed, completedDate := some now } := by
            constructor <;> simp [hem]
          exact goodStore_writeDoc (goodStore_writeDoc hg1 h2) h3

/-! ## The submission and manual-trigger steps preserve the invariant -/

theorem insertRecord_good {s : Store} {r : TRec} {s' : Store}
    (hg : GoodStore s) (hid : r.id = s.nextId) (hok : RecOK r)
    (hcd : r.completedDate = none) (hem : r.errorMessage = none)
    (h : insertRecord s r = .ok s') :
    GoodStore s' ∧ FreshAt s' s.nextId ∧ s'.nextId = s.nextId + 1 := by
  unfold insertRecord at h
  split at h
  · exact absurd h (by simp)
  · cases h
    obtain ⟨hb, hn, hi⟩ := hg
    refine ⟨⟨?_, ?_, ?_⟩, ?_, rfl⟩
    · intro x hx
      rcases List.mem_append.mp hx with hold | hnew
      · exact Nat.lt_succ_of_lt (hb x hold)
      · simp only [List.mem_singleton] at hnew
        subst hnew
        rw [hid]
        exact Nat.lt_succ_self _
    · unfold IdsNodup
      simp only [List.map_append]
      rw [List.nodup_append]
      refine ⟨hn, by simp, ?_⟩
      intro a ha ha'
      simp only [List.map_cons, List.map_nil, List.mem_singleton] at ha'
      rcases List.mem_map.mp ha with ⟨x, hx, hxe⟩
      have hlt := hb x hx
      rw [hxe, ha', hid] at hlt
      exact absurd hlt (Nat.lt_irrefl _)
    · intro x hx
      rcases List.mem_append.mp hx with hold | hnew
      · exact hi x hold
      · simp only [List.mem_singleton] at hnew
        subst hnew
        exact hok
    · intro x hx hxid
      rcases List.mem_append.mp hx with hold | hnew
      · exact absurd hxid (Nat.ne_of_lt (hb x hold))
      · simp only [List.mem_singleton] at hnew
        subst hnew
        exact ⟨hcd, hem⟩

theorem afterInfo_spec (cfg : Config) (now : Nat) {s : Store}
    (url lang : String) (vi : VideoInfo) (calls : List Call)
    (hg : GoodStore s) :
    GoodStore (afterInfo cfg now s url lang vi calls).store ∧
    ((afterInfo cfg now s url lang vi calls).launched = true →
      (afterInfo cfg now s url lang vi calls).result = Except.ok s.nextId ∧
      FreshAt (afterInfo cfg now s url lang vi calls).store s.nextId) := by
  unfold afterInfo
  rcases hfe : findExisting s vi.videoId with _ | ex <;> simp only [hfe]
  · split
    · exact ⟨hg, by intro h; simp at h⟩
    · next s' heq =>
        obtain ⟨hgood, hfresh, _⟩ := insertRecord_good hg rfl
          (by refine ⟨?_, ?_⟩ <;> · dsimp only; split <;> simp)
          rfl rfl heq
        exact ⟨hgood, fun _ => ⟨rfl, hfresh⟩⟩
  · exact ⟨hg, by intro h; simp at h⟩

theorem submitCore_spec (cfg : Config) (env : Env) (now : Nat) {s : Store}
    (url lang : String) (hg : GoodStore s) :
    GoodStore (submitCore cfg env now s url lang).store ∧
    ((submitCore cfg env now s url lang).launched = true →
      (submitCore cfg env now s url lang).result = Except.ok s.nextId ∧
      FreshAt (submitCore cfg env now s url lang).store s.nextId) := by
  unfold submitCore
  rcases hrv : resolveVideoInfo cfg env now url with ⟨res, calls⟩
  cases res with
  | error e =>
      simp only [hrv]
      exact ⟨hg, by intro h; simp at h⟩
  | ok vi =>
      simp only [hrv]
      exact afterInfo_spec cfg now url lang vi calls hg

theorem startTranscription_spec (cfg : Config) (env : Env) (now : Nat)
    {s : Store} (url lang : String) (hg : GoodStore s) :
    GoodStore (startTranscription cfg env now s url lang).store ∧
    ((startTranscription cfg env now s url lang).launched = true →
      (startTranscription cfg env now s url lang).result =
        Except.ok s.nextId ∧
      FreshAt (startTranscription cfg env now s url lang).store s.nextId) := by
  obtain ⟨h1, h2⟩ := submitCore_spec cfg env now url lang hg
  unfold startTranscription
  rcases hsc : submitCore cfg env now s url lang with ⟨res, st, calls, la⟩
  rw [hsc] at h1 h2
  cases res with
  | error e =>
      dsimp only at h1 h2 ⊢
      refine ⟨h1, fun hl => ?_⟩
      obtain ⟨hr, _⟩ := h2 hl
      exact absurd hr (by simp)
  | ok i =>
      dsimp only at h1 h2 ⊢
      exact ⟨h1, h2⟩

theorem submitStep_good (cfg : Config) (env : Env) (now : Nat)
    (url lang : String) {s : Store} (hg : GoodStore s) :
    GoodStore (submitStep cfg env now url lang s) := by
  obtain ⟨h1, h2⟩ := startTranscription_spec cfg env now url lang hg
  unfold submitStep
  rcases hla : (startTranscription cfg env now s url lang).launched
  · simp only [hla, Bool.false_eq_true, if_false]
    exact h1
  · simp only [hla, if_true]
    obtain ⟨hres, hfr⟩ := h2 hla
    rw [hres]
    exact processTranscription_good cfg (initializeProviders cfg) env now
      s.nextId h1 hfr

theorem processFileStep_good (cfg : Config) (env : Env) (now : Nat)
    (i : Nat) (path : String) (streamUrl : Option String) {s : Store}
    (hg : GoodStore s) :
    GoodStore (processFileStep cfg env now i path streamUrl s) := by
  unfold processFileStep processWithAudioFile
  rcases hfb : findById s i with _ | t <;> simp only [hfb]
  · exact hg
  · split
    · exact hg
    · next hpd =>
        have hst : t.status = .pending_download := by
          by_contra hc
          exact hpd (by simp [hc])
        have hok := hg.2.2 t (findById_mem hfb)
        have hcd : t.completedDate = none := by
          by_contra hc
          have := hok.1.mp hc
          rw [hst] at this
          exact absurd this (by simp)
        have hem : t.errorMessage = none := by
          by_contra hc
          have := hok.2.mp hc
          rw [hst] at this
          exact absurd this (by simp)
        rcases hres : resolveAudioPath env path streamUrl with e | actual <;>
          simp only [hres]
        · exact hg
        · have hfresh : FreshAt s i :=
            freshAt_of_findById hg.2.1 hfb hcd hem
          have hid := findById_id hfb
          have h1 : RecOK
              { t with
                status := TStatus.processing,
                progress := 10, audioFilePath := some actual } := by
            constructor <;> simp [hcd, hem]
          exact processTranscriptionWithFile_good cfg
            (initializeProviders cfg) env now i actual
            (goodStore_writeDoc hg h1)
            (freshAt_writeDoc hfresh (by rw [hid]; exact fun _ => ⟨hcd, hem⟩))

theorem deleteStep_good (i : Nat) {s : Store} (hg : GoodStore s) :
    GoodStore (deleteStep i s) := by
  unfold deleteStep deleteTranscript
  rcases hfb : findById s i with _ | t <;> simp only [hfb]
  · exact hg
  · unfold deleteById
    obtain ⟨hb, hn, hi⟩ := hg
    refine ⟨?_, ?_, ?_⟩
    · intro r hr
      exact hb r (List.mem_of_mem_filter hr)
    · unfold IdsNodup
      exact hn.sublist ((List.filter_sublist _).map _)
    · intro r hr
      exact hi r (List.mem_of_mem_filter hr)

theorem reachableNR_good {cfg : Config} {s : Store}
    (h : ReachableNR cfg s) : GoodStore s := by
  induction h with
  | empty =>
      refine ⟨?_, ?_, ?_⟩ <;> simp [IdsBounded, IdsNodup, RecordInvariant]
  | submit env now url lang _ ih => exact submitStep_good cfg env now url lang ih
  | processFile env now i path streamUrl _ ih =>
      exact processFileStep_good cfg env now i path streamUrl ih
  | del i _ ih => exact deleteStep_good i ih

/-! ## Polling-loop lemmas -/

theorem pollGuardFalse {k : Nat} (hk : k ≤ 300) :
    ¬ POLL_INTERVAL_MS * k > MAX_POLL_TIME_MS := by
  simp only [POLL_INTERVAL_MS, MAX_POLL_TIME_MS]
  omega

theorem pollFrom_downloading (env : DlEnv) (jobId : String) (k : Nat)
    (hk : k ≤ 300) (h : env.poll k = .respond .downloading) :
    pollFrom env jobId k =
      ⟨(pollFrom env jobId (k + 1)).result,
       (pollFrom env jobId (k + 1)).statusCalls + 1,
       (pollFrom env jobId (k + 1)).fetchCalls⟩ := by
  rw [pollFrom, dif_neg (pollGuardFalse hk)]
  simp only [getDownloadStatus, h]

theorem pollFrom_completed (env : DlEnv) (jobId : String) (k : Nat)
    (hk : k ≤ 300) (h : env.poll k = .respond .completed) :
    pollFrom env jobId k = ⟨env.fetchResult, 1, 1⟩ := by
  rw [pollFrom, dif_neg (pollGuardFalse hk)]
  simp only [getDownloadStatus, h]
  rcases hf : env.fetchResult <;> simp [hf]

theorem pollFrom_transient (env : DlEnv) (jobId : String) (k : Nat)
    (msg : String) (hk : k ≤ 300) (h : env.poll k = .transient msg) :
    pollFrom env jobId k = ⟨.error msg, 1, 0⟩ := by
  rw [pollFrom, dif_neg (pollGuardFalse hk)]
  simp only [getDownloadStatus, h]

theorem pollFrom_notFound (env : DlEnv) (jobId : String) (k : Nat)
    (hk : k ≤ 300) (h : env.poll k = .notFound) :
    pollFrom env jobId k =
      ⟨.error ("Download job " ++ jobId ++ " not found"), 1, 0⟩ := by
  rw [pollFrom, dif_neg (pollGuardFalse hk)]
  simp only [getDownloadStatus, h]

theorem pollFrom_leading (env : DlEnv) (jobId : String) (N : Nat)
    (hb : N ≤ 300)
    (hdl : ∀ i, i < N → env.poll i = .respond .downloading) :
    pollFrom env jobId 0 =
      ⟨(pollFrom env jobId N).result,
       (pollFrom env jobId N).statusCalls + N,
       (pollFrom env jobId N).fetchCalls⟩ := by
  suffices h : ∀ d k, k + d = N → pollFrom env jobId k =
      ⟨(pollFrom env jobId N).result,
       (pollFrom env jobId N).statusCalls + d,
       (pollFrom env jobId N).fetchCalls⟩ by
    simpa using h N 0 (by omega)
  intro d
  induction d with
  | zero =>
      intro k hk
      have hkN : k = N := by omega
      subst hkN
      rfl
  | succ d ih =>
      intro k hk
      have hkN : k < N := by omega
      rw [pollFrom_downloading env jobId k (by omega) (hdl k hkN),
        ih (k + 1) (by omega)]
      rfl

theorem pollFrom_budget (env : DlEnv) (jobId : String) :
    pollFrom env jobId 301 =
      ⟨.error "Download timed out after 600 seconds", 0, 0⟩ := by
  rw [pollFrom, dif_pos (by simp [POLL_INTERVAL_MS, MAX_POLL_TIME_MS])]
  rfl

theorem pollFrom_timeout (env : DlEnv) (jobId : String)
    (hdl : ∀ i, env.poll i = .respond .downloading) :
    ∀ d k, k + d = 301 → pollFrom env jobId k =
      ⟨.error "Download timed out after 600 seconds", d, 0⟩ := by
  intro d
  induction d with
  | zero =>
      intro k hk
      have hk301 : k = 301 := by omega
      subst hk301
      rw [pollFrom, dif_pos (by simp [POLL_INTERVAL_MS, MAX_POLL_TIME_MS])]
      rfl
  | succ d ih =>
      intro k hk
      rw [pollFrom_downloading env jobId k (by omega) (hdl k),
        ih (k + 1) (by omega)]

/-! ## Claim theorems -/

/-- C3: against a remote that reports `downloading` for N polls and
then `completed` (within the 10-minute/2-second budget, i.e. N ≤ 300),
`downloadAudio` issues exactly N+1 status calls and fetches the
artifact exactly once; against a remote that never leaves
`downloading`, it raises the timeout error once the wall-clock budget
is exceeded and never calls the artifact fetch. -/
theorem downloadAudio_polling_protocol :
    (∀ (env : DlEnv) (N : Nat) (jid p : String),
      env.startResult = .ok jid →
      (∀ i, i < N → env.poll i = .respond .downloading) →
      env.poll N = .respond .completed →
      env.fetchResult = .ok p →
      N ≤ 300 →
      (downloadAudio env).result = .ok p ∧
      (downloadAudio env).statusCalls = N + 1 ∧
      (downloadAudio env).fetchCalls = 1) ∧
    (∀ (env : DlEnv) (jid : String),
      env.startResult = .ok jid →
      (∀ i, env.poll i = .respond .downloading) →
      (downloadAudio env).result =
        .error "Download timed out after 600 seconds" ∧
      (downloadAudio env).fetchCalls = 0) := by
  constructor
  · intro env N jid p hstart hdl hN hf hb
    have hda : downloadAudio env = ⟨.ok p, 1 + N, 1⟩ := by
      simp only [downloadAudio, hstart]
      rw [pollFrom_leading env jid N hb hdl,
        pollFrom_completed env jid N hb hN, hf]
    rw [hda]
    exact ⟨rfl, Nat.add_comm 1 N, rfl⟩
  · intro env jid hstart hdl
    have hda : downloadAudio env =
        ⟨.error "Download timed out after 600 seconds", 301, 0⟩ := by
      simp only [downloadAudio, hstart]
      exact pollFrom_timeout env jid hdl 301 0 rfl
    rw [hda]
    exact ⟨rfl, rfl⟩

/-- Witness for C3 at the §8 scenario: two `downloading` polls then
`completed` gives 3 status calls and one fetch. -/
theorem downloadAudio_polling_protocol_witness :
    (downloadAudio dlEnvTwoPolls).result = .ok "p.mp3" ∧
    (downloadAudio dlEnvTwoPolls).statusCalls = 3 ∧
    (downloadAudio dlEnvTwoPolls).fetchCalls = 1 := by
  have h := downloadAudio_polling_protocol.1 dlEnvTwoPolls 2 "job1" "p.mp3"
    rfl (by intro i hi; interval_cases i <;> rfl) rfl rfl (by omega)
  exact ⟨h.1, h.2.1, h.2.2⟩

/-- C3 counterexample: against a remote that reports `downloading` for
N = 301 polls and then `completed`, the client does not issue N+1
status calls and one fetch: the 10-minute budget expires first, after
301 status calls, and the run ends in the timeout error with no fetch.
The claim as stated thus fails for N beyond the polling budget. -/
theorem slow_remote_hits_budget :
    dlEnvSlow.poll 301 = .respond .completed ∧
    (downloadAudio dlEnvSlow).result =
      .error "Download timed out after 600 seconds" ∧
    (downloadAudio dlEnvSlow).statusCalls = 301 ∧
    (downloadAudio dlEnvSlow).fetchCalls = 0 := by
  have hdl : ∀ i, i < 301 → dlEnvSlow.poll i = .respond .downloading := by
    intro i hi
    show (if i < 301 then PollReply.respond JobState.downloading
      else PollReply.respond JobState.completed) =
      PollReply.respond JobState.downloading
    rw [if_pos hi]
  have hstep : pollFrom dlEnvSlow "job1" 300 =
      ⟨.error "Download timed out after 600 seconds", 1, 0⟩ := by
    rw [pollFrom_downloading dlEnvSlow "job1" 300 (by omega)
        (hdl 300 (by omega)),
      pollFrom_budget dlEnvSlow "job1"]
  have h0 : pollFrom dlEnvSlow "job1" 0 =
      ⟨.error "Download timed out after 600 seconds", 301, 0⟩ := by
    rw [pollFrom_leading dlEnvSlow "job1" 300 (by omega)
      (fun i hi => hdl i (by omega)), hstep]
  have hda : downloadAudio dlEnvSlow =
      ⟨.error "Download timed out after 600 seconds", 301, 0⟩ := by
    simp only [downloadAudio,
      show dlEnvSlow.startResult = Except.ok "job1" from rfl]
    exact h0
  rw [hda]
  exact ⟨by decide, rfl, rfl, rfl⟩

/-- C5 counterexample: the remote would report `completed` from the
second poll on, yet a single transient failure of the first status
call terminates `downloadAudio` with that error — the poll is not
retried and the artifact is never fetched. -/
theorem transient_poll_error_aborts :
    dlEnvTransient.poll 1 = .respond .completed ∧
    (downloadAudio dlEnvTransient).result = .error "ECONNRESET" ∧
    (downloadAudio dlEnvTransient).statusCalls = 1 ∧
    (downloadAudio dlEnvTransient).fetchCalls = 0 := by
  have hda : downloadAudio dlEnvTransient = ⟨.error "ECONNRESET", 1, 0⟩ := by
    simp only [downloadAudio,
      show dlEnvTransient.startResult = Except.ok "job1" from rfl]
    exact pollFrom_transient dlEnvTransient "job1" 0 "ECONNRESET"
      (by omega) rfl
  rw [hda]
  exact ⟨rfl, rfl, rfl, rfl⟩

/-- C5 amended: any failure of a status poll is terminal.  After k
in-budget `downloading` polls, a transient transport error on the next
status call aborts `downloadAudio` with that error, and a definitive
job-not-found (404) response aborts it with the not-found error; in
both cases no retry happens and the artifact fetch is never called. -/
theorem poll_error_terminal :
    ∀ (env : DlEnv) (jid : String) (k : Nat),
      env.startResult = .ok jid →
      (∀ i, i < k → env.poll i = .respond .downloading) →
      k ≤ 300 →
      (∀ msg, env.poll k = .transient msg →
        (downloadAudio env).result = .error msg ∧
        (downloadAudio env).statusCalls = k + 1 ∧
        (downloadAudio env).fetchCalls = 0) ∧
      (env.poll k = .notFound →
        (downloadAudio env).result =
          .error ("Download job " ++ jid ++ " not found") ∧
        (downloadAudio env).statusCalls = k + 1 ∧
        (downloadAudio env).fetchCalls = 0) := by
  intro env jid k hstart hdl hk
  constructor
  · intro msg hmsg
    have hda : downloadAudio env = ⟨.error msg, 1 + k, 0⟩ := by
      simp only [downloadAudio, hstart]
      rw [pollFrom_leading env jid k hk hdl,
        pollFrom_transient env jid k msg hk hmsg]
    rw [hda]
    exact ⟨rfl, Nat.add_comm 1 k, rfl⟩
  · intro hnf
    have hda : downloadAudio env =
        ⟨.error ("Download job " ++ jid ++ " not found"), 1 + k, 0⟩ := by
      simp only [downloadAudio, hstart]
      rw [pollFrom_leading env jid k hk hdl,
        pollFrom_notFound env jid k hk hnf]
    rw [hda]
    exact ⟨rfl, Nat.add_comm 1 k, rfl⟩

/-- Witness for the amended C5 at a concrete remote: the transient
error of the first poll is the run's result. -/
theorem poll_error_terminal_witness :
    (downloadAudio dlEnvTransient).result = .error "ECONNRESET" ∧
    (downloadAudio dlEnvTransient).statusCalls = 1 ∧
    (downloadAudio dlEnvTransient).fetchCalls = 0 := by
  have h := (poll_error_terminal dlEnvTransient "job1" 0 rfl
    (by intro i hi; omega) (by omega)).1 "ECONNRESET" rfl
  exact ⟨h.1, h.2.1, h.2.2⟩

/-- C6 counterexample: a request that carries the source-cluster header
with the value `local` — the explicit origin signal is present and
non-production — together with a K8s-internal peer IP still routes to
the production store: the heuristics are consulted although the
header is present. -/
theorem sourceCluster_header_not_authoritative :
    reqLocalHeaderProdIp.sourceCluster = some "local" ∧
    getConnection (some reqLocalHeaderProdIp) = .production := by
  exact ⟨rfl, by decide⟩

/-- C6 amended: only the header values `k8s` and `production` win
outright (forcing the production store); for any other or absent
header value the network/host heuristics decide, and with no request
context the local store is used. -/
theorem sourceCluster_resolution :
    (∀ r : ReqCtx,
      (r.sourceCluster = some "k8s" ∨ r.sourceCluster = some "production") →
      getConnection (some r) = .production) ∧
    (∀ r : ReqCtx,
      r.sourceCluster ≠ some "k8s" → r.sourceCluster ≠ some "production" →
      (getConnection (some r) = .production ↔
        matchesProdPattern (indicatorString r) = true)) ∧
    getConnection none = .localStore := by
  refine ⟨?_, ?_, rfl⟩
  · intro r hr
    unfold getConnection isProductionRequest
    rcases hr with h | h <;> simp [h]
  · intro r h1 h2
    unfold getConnection isProductionRequest
    have hc : (r.sourceCluster == some "k8s" ||
        r.sourceCluster == some "production") = false := by
      simp only [Bool.or_eq_false_iff, beq_eq_false_iff_ne, ne_eq]
      exact ⟨h1, h2⟩
    rcases hm : matchesProdPattern (indicatorString r) <;> simp [hc, hm]

/-- Witness for the amended C6: the production header value routes to
the production store even with a loopback peer address. -/
theorem sourceCluster_resolution_witness :
    getConnection (some ⟨some "production", some "127.0.0.1", none, none,
      none, none, none⟩) = .production :=
  sourceCluster_resolution.1 _ (Or.inr rfl)

theorem resolveVideoInfo_calls (cfg : Config) (env : Env) (now : Nat)
    (url : String) :
    ∀ c ∈ (resolveVideoInfo cfg env now url).2,
      c = Call.videoInfoApi ∨ c = Call.videoInfoPython := by
  intro c hc
  unfold resolveVideoInfo at hc
  rcases hm : useMockFlag cfg <;>
    rcases hac : cfg.youtubeApiConfigured <;>
    rcases ha : apiGetVideoInfo cfg env with e | vi <;>
    rcases hp : env.pythonInfo with e2 | vi2 <;>
    simp only [hm, hac, ha, hp, Bool.false_eq_true, if_false, if_true] at hc <;>
    (try split at hc) <;>
    simp_all

/-- C1 counterexample: in a non-mock deployment, submitting a video
that already has a completed record still issues the video-info lookup
(the dedup key is resolved by calling the collaborator before the
duplicate check), so the collaborator call count is not zero. -/
theorem submit_duplicate_calls_video_info :
    (startTranscription cfgAuto envCaptions 7 storeCompleted "u" "en").result
      = .ok 3 ∧
    (startTranscription cfgAuto envCaptions 7 storeCompleted "u" "en").calls
      = [Call.videoInfoApi] ∧
    (startTranscription cfgAuto envCaptions 7 storeCompleted "u" "en").calls
      ≠ [] := by
  refine ⟨by decide, by decide, by decide⟩

/-- C1 amended: when the resolved video id has an existing
completed record, `submit` returns that record's id, launches no
pipeline, leaves the store unchanged, and calls no collaborator other
than the video-info lookup(s) used to resolve the id — in particular
no caption fetch, download, conversion or transcription call. -/
theorem submit_duplicate_idempotent :
    ∀ (cfg : Config) (env : Env) (now : Nat) (s : Store)
      (url lang : String) (vi : VideoInfo) (ex : TRec),
      (resolveVideoInfo cfg env now url).1 = .ok vi →
      findExisting s vi.videoId = some ex →
      ex.status = .completed →
      (startTranscription cfg env now s url lang).result = .ok ex.id ∧
      (startTranscription cfg env now s url lang).launched = false ∧
      (startTranscription cfg env now s url lang).store = s ∧
      (∀ c ∈ (startTranscription cfg env now s url lang).calls,
        c = Call.videoInfoApi ∨ c = Call.videoInfoPython) := by
  intro cfg env now s url lang vi ex hres hex hst
  have hsub : startTranscription cfg env now s url lang =
      ⟨.ok ex.id, s, (resolveVideoInfo cfg env now url).2, false⟩ := by
    unfold startTranscription submitCore
    rcases hrv : resolveVideoInfo cfg env now url with ⟨res, calls⟩
    rw [hrv] at hres
    dsimp at hres
    subst hres
    unfold afterInfo
    simp only [hex]
  rw [hsub]
  refine ⟨rfl, rfl, rfl, ?_⟩
  exact resolveVideoInfo_calls cfg env now url

/-- Witness for the amended C1 at the concrete completed-record store. -/
theorem submit_duplicate_idempotent_witness :
    (startTranscription cfgAuto envCaptions 7 storeCompleted "u" "en").result
      = .ok recCompleted.id ∧
    (startTranscription cfgAuto envCaptions 7 storeCompleted "u" "en").launched
      = false := by
  have h := submit_duplicate_idempotent cfgAuto envCaptions 7 storeCompleted
    "u" "en" ⟨"v1", "T", 300⟩ recCompleted (by decide) (by decide) rfl
  exact ⟨h.1, h.2.1⟩

/-- C2 counterexample: the caption fetch returns the non-empty text
`"42"`, yet because its SRT-to-plain-text conversion drops pure-digit
lines and so yields the empty string, the pipeline falls through to
the audio stage and the audio-download collaborator is invoked. -/
theorem captions_digits_fall_to_audio :
    downloadCaptions envDigitCaptions.captionFetch = some "42" ∧
    convertSRTToPlainText "42" = "" ∧
    Call.audioDownload ∈
      (processTranscription cfgAuto (initializeProviders cfgAuto)
        envDigitCaptions 5 storePending 0).calls := by
  refine ⟨by decide, by decide, by decide⟩

/-- C2 amended: in a non-mock run with the YouTube API configured, when
caption acquisition returns text whose plain-text conversion is
non-empty, the record completes with progress 100, `completedAt` set,
transcript/wordCount written and provider `youtube-api-captions`, the
only collaborator call is the caption fetch (no audio download); and
any caption-fetch failure is absorbed into "no captions". -/
theorem captions_complete_without_audio :
    (∀ (cfg : Config) (pv : Providers) (env : Env) (now : Nat) (s : Store)
      (i : Nat) (r : TRec) (ct : String),
      findById s i = some r →
      useMockFlag cfg = false →
      cfg.youtubeApiConfigured = true →
      downloadCaptions env.captionFetch = some ct →
      (convertSRTToPlainText ct).length > 0 →
      findById (processTranscription cfg pv env now s i).store i = some
        { r with
          transcript := convertSRTToPlainText ct,
          wordCount := some (countWordsJS (convertSRTToPlainText ct)),
          status := TStatus.completed, progress := 100,
          completedDate := some now, provider := "youtube-api-captions" } ∧
      (processTranscription cfg pv env now s i).calls =
        [Call.captionFetch] ∧
      Call.audioDownload ∉ (processTranscription cfg pv env now s i).calls) ∧
    (∀ e, downloadCaptions (Except.error e) = none) := by
  constructor
  · intro cfg pv env now s i r ct hr hm hapi hdc hlen
    have hid : r.id = i := findById_id hr
    have hpt : processTranscription cfg pv env now s i =
        ⟨writeDoc (writeDoc s { r with status := .processing, progress := 10 })
          { r with
            transcript := convertSRTToPlainText ct,
            wordCount := some (countWordsJS (convertSRTToPlainText ct)),
            status := TStatus.completed, progress := 100,
            completedDate := some now, provider := "youtube-api-captions" },
         [Call.captionFetch], cleanupPaths cfg none none⟩ := by
      unfold processTranscription
      simp only [hr, hm, hapi, hdc, Bool.not_false, Bool.and_self, if_true]
      rw [if_pos hlen]
    rw [hpt]
    refine ⟨?_, rfl, by simp⟩
    rw [findById_writeDoc, findById_writeDoc, hr]
    simp [hid]
  · intro e
    rfl

/-- Witness for the amended C2 at the concrete captions environment. -/
theorem captions_complete_without_audio_witness :
    findById (processTranscription cfgAuto (initializeProviders cfgAuto)
        envCaptions 5 storePending 0).store 0 = some
      { recPending with
        transcript := "hello world", wordCount := some 2,
        status := TStatus.completed, progress := 100,
        completedDate := some 5, provider := "youtube-api-captions" } ∧
    Call.audioDownload ∉
      (processTranscription cfgAuto (initializeProviders cfgAuto)
        envCaptions 5 storePending 0).calls := by
  have h := captions_complete_without_audio.1 cfgAuto
    (initializeProviders cfgAuto) envCaptions 5 storePending 0 recPending
    "hello world" (by decide) rfl rfl (by decide) (by decide)
  have hconv : convertSRTToPlainText "hello world" = "hello world" := by
    decide
  have hwc : countWordsJS "hello world" = 2 := by decide
  obtain ⟨h1, _, h3⟩ := h
  rw [hconv, hwc] at h1
  exact ⟨h1, h3⟩

theorem finishTranscription_dispatch_error (cfg : Config) (pv : Providers)
    (env : Env) (now : Nat) (s : Store) (t : TRec) (calls : List Call)
    (ap cp : Option String) (e : String)
    (hd : (dispatchAuto cfg pv env).1 = .error e) :
    finishTranscription cfg pv env now s t calls ap cp =
      ⟨failUpdate s t.id e, calls ++ (dispatchAuto cfg pv env).2,
       cleanupPaths cfg ap cp⟩ := by
  unfold finishTranscription
  rcases hda : dispatchAuto cfg pv env with ⟨res, dc⟩
  rw [hda] at hd
  dsimp at hd
  subst hd
  rfl

theorem audioStage_download_error (cfg : Config) (pv : Providers)
    (env : Env) (now : Nat) (s1 : Store) (t1 : TRec) (calls : List Call)
    (e : String) (hm : useMockFlag cfg = false)
    (hde : env.downloadResult = .error e) :
    audioStage cfg pv env now s1 t1 calls =
      ⟨failUpdate s1 t1.id e, calls ++ [.audioDownload],
       cleanupPaths cfg none none⟩ := by
  unfold audioStage
  simp only [hm, Bool.false_eq_true, if_false, hde]

theorem audioStage_convert_error (cfg : Config) (pv : Providers)
    (env : Env) (now : Nat) (s1 : Store) (t1 : TRec) (calls : List Call)
    (ap e : String) (hm : useMockFlag cfg = false)
    (hdl : env.downloadResult = .ok ap)
    (hce : env.convertResult = .error e) :
    audioStage cfg pv env now s1 t1 calls =
      ⟨failUpdate
         (writeDoc s1 { t1 with progress := 30, audioFilePath := some ap })
         t1.id e,
       calls ++ [.audioDownload, .audioConvert],
       cleanupPaths cfg (some ap) none⟩ := by
  unfold audioStage
  simp only [hm, Bool.false_eq_true, if_false, hdl, hce]

theorem audioStage_transcribe_error (cfg : Config) (pv : Providers)
    (env : Env) (now : Nat) (s1 : Store) (t1 : TRec) (calls : List Call)
    (ap cp e : String) (hm : useMockFlag cfg = false)
    (hdl : env.downloadResult = .ok ap)
    (hcv : env.convertResult = .ok cp)
    (hd : (dispatchAuto cfg pv env).1 = .error e) :
    audioStage cfg pv env now s1 t1 calls =
      ⟨failUpdate
         (writeDoc
           (writeDoc s1 { t1 with progress := 30, audioFilePath := some ap })
           { t1 with progress := 50, audioFilePath := some ap })
         t1.id e,
       (calls ++ [.audioDownload, .audioConvert]) ++
         (dispatchAuto cfg pv env).2,
       cleanupPaths cfg (some ap) (some cp)⟩ := by
  unfold audioStage
  simp only [hm, Bool.false_eq_true, if_false, hdl, hcv]
  exact finishTranscription_dispatch_error cfg pv env now _ _ _ _ _ e hd

theorem processTranscription_to_audioStage (cfg : Config) (pv : Providers)
    (env : Env) (now : Nat) {s : Store} {i : Nat} {r : TRec}
    (hr : findById s i = some r) (hm : useMockFlag cfg = false)
    (hnc : cfg.youtubeApiConfigured = false ∨
      downloadCaptions env.captionFetch = none ∨
      ∃ ct, downloadCaptions env.captionFetch = some ct ∧
        (convertSRTToPlainText ct).length = 0) :
    ∃ calls, processTranscription cfg pv env now s i =
      audioStage cfg pv env now
        (writeDoc s { r with status := .processing, progress := 10 })
        { r with status := .processing, progress := 10 } calls := by
  unfold processTranscription
  simp only [hr]
  rcases hnc with hac | hdc | ⟨ct, hdc, hlen⟩
  · exact ⟨[], by simp [hac]⟩
  · rcases hac : cfg.youtubeApiConfigured
    · exact ⟨[], by simp [hac]⟩
    · exact ⟨[Call.captionFetch], by simp [hac, hm, hdc]⟩
  · rcases hac : cfg.youtubeApiConfigured
    · exact ⟨[], by simp [hac]⟩
    · refine ⟨[Call.captionFetch], ?_⟩
      simp only [hac, hm, hdc, Bool.not_false, Bool.and_self, if_true]
      rw [if_neg (by omega)]

/-- C4: any exception from a pipeline stage (download, conversion or
transcription) is absorbed by the auto-mode pipeline task: the record
is updated to `failed` with `errorMessage` set to the cause and
`progress = 0`, and temporary files are cleaned up per the cleanup
flag.  The task itself always returns an ordinary `PipeResult` — the
catch block is part of `processTranscription`'s definition — so the
exception is never re-thrown to the submitter, who already got the id
from `startTranscription`. -/
theorem pipeline_stage_failure_absorbed :
    ∀ (cfg : Config) (pv : Providers) (env : Env) (now : Nat) (s : Store)
      (i : Nat) (r : TRec),
      findById s i = some r →
      useMockFlag cfg = false →
      (cfg.youtubeApiConfigured = false ∨
        downloadCaptions env.captionFetch = none ∨
        ∃ ct, downloadCaptions env.captionFetch = some ct ∧
          (convertSRTToPlainText ct).length = 0) →
      (∀ e, env.downloadResult = .error e →
        findById (processTranscription cfg pv env now s i).store i = some
          { r with status := TStatus.failed, progress := 0,
                   errorMessage := some e } ∧
        (processTranscription cfg pv env now s i).deleted = []) ∧
      (∀ ap e, env.downloadResult = .ok ap →
        env.convertResult = .error e →
        findById (processTranscription cfg pv env now s i).store i = some
          { r with status := TStatus.failed, progress := 0,
                   errorMessage := some e, audioFilePath := some ap } ∧
        (processTranscription cfg pv env now s i).deleted =
          (if cfg.cleanupTempFiles then [ap] else [])) ∧
      (∀ ap cp e, env.downloadResult = .ok ap →
        env.convertResult = .ok cp →
        (dispatchAuto cfg pv env).1 = .error e →
        findById (processTranscription cfg pv env now s i).store i = some
          { r with status := TStatus.failed, progress := 0,
                   errorMessage := some e, audioFilePath := some ap } ∧
        (processTranscription cfg pv env now s i).deleted =
          cleanupPaths cfg (some ap) (some cp)) := by
  intro cfg pv env now s i r hr hm hnc
  obtain ⟨calls0, hpt⟩ :=
    processTranscription_to_audioStage cfg pv env now hr hm hnc
  have hid : r.id = i := findById_id hr
  refine ⟨?_, ?_, ?_⟩
  · intro e hde
    rw [hpt, audioStage_download_error cfg pv env now _ _ calls0 e hm hde]
    constructor
    · rw [findById_failUpdate, findById_writeDoc, hr]
      simp [hid]
    · have hcl : cleanupPaths cfg none none = [] := by
        unfold cleanupPaths
        split <;> rfl
      simpa using hcl
  · intro ap e hdl hce
    rw [hpt, audioStage_convert_error cfg pv env now _ _ calls0 ap e hm hdl hce]
    constructor
    · rw [findById_failUpdate, findById_writeDoc, findById_writeDoc, hr]
      simp [hid]
    · have hcl : cleanupPaths cfg (some ap) none =
          (if cfg.cleanupTempFiles then [ap] else []) := by
        unfold cleanupPaths
        split <;> rfl
      simpa using hcl
  · intro ap cp e hdl hcv hd
    rw [hpt, audioStage_transcribe_error cfg pv env now _ _ calls0 ap cp e
      hm hdl hcv hd]
    constructor
    · rw [findById_failUpdate, findById_writeDoc, findById_writeDoc,
        findById_writeDoc, hr]
      simp [hid]
    · rfl

/-- Witness for C4 at a concrete failing download. -/
theorem pipeline_stage_failure_absorbed_witness :
    findById (processTranscription cfgAuto (initializeProviders cfgAuto)
        envDlFail 5 storePending 0).store 0 = some
      { recPending with status := TStatus.failed, progress := 0,
                        errorMessage := some "network down" } ∧
    (processTranscription cfgAuto (initializeProviders cfgAuto)
        envDlFail 5 storePending 0).deleted = [] := by
  have h := (pipeline_stage_failure_absorbed cfgAuto
    (initializeProviders cfgAuto) envDlFail 5 storePending 0 recPending
    (by decide) rfl (Or.inr (Or.inl (by decide)))).1 "network down" rfl
  exact h

/-- C7 counterexample: submit a video, let the pipeline complete via
captions, then `reset()` it.  The resulting record — reached by core
operations only — has status `pending_download` while `completedAt` is
still set (reset never clears `completedDate`), so the claimed
equivalence `completedAt non-null ⇔ status = completed` fails. -/
theorem reset_preserves_completedDate :
    (findById (resetStep 0 (submitStep cfgAuto envCaptions 5 "u" "en"
        ⟨[], 0⟩)) 0).map (fun r => (r.status, r.completedDate)) =
      some (TStatus.pending_download, some 5) ∧
    ¬ RecordInvariant (resetStep 0 (submitStep cfgAuto envCaptions 5 "u" "en"
        ⟨[], 0⟩)) := by
  refine ⟨by decide, by decide⟩

/-- C7 amended: for every store reachable from the empty store by the
core operations other than `reset` — submit (with its auto pipeline),
`processWithAudioFile` (with its manual pipeline), and delete — every
record satisfies `completedAt` non-null ⇔ status = completed and
`errorMessage` non-null ⇔ status = failed.  `reset()` breaks the first
equivalence because it rewinds the status without clearing
`completedDate` (and it stores an empty-string `errorMessage` rather
than unsetting the field). -/
theorem reachableNR_record_invariant :
    ∀ (cfg : Config) (s : Store), ReachableNR cfg s → RecordInvariant s :=
  fun _ _ h => (reachableNR_good h).2.2

/-- Witness for the amended C7 on a concrete reachable store. -/
theorem reachableNR_record_invariant_witness :
    RecordInvariant (submitStep cfgAuto envCaptions 5 "u" "en" ⟨[], 0⟩) :=
  reachableNR_record_invariant cfgAuto _
    (ReachableNR.submit envCaptions 5 "u" "en" ReachableNR.empty)

/-- C8 counterexample: with the mock-override flag set, a manual
pipeline run (`processWithAudioFile` on a `pending_download` record)
does not use the mock provider: `processTranscriptionWithFile` has no
mock branch and no other provider was initialized, so the job ends
`failed` with `No transcription provider available` instead of
completing. -/
theorem mock_override_ignored_in_manual :
    cfgMockManual.useMockTranscription = true ∧
    (processFileStep cfgMockManual envCaptions 9 0 "f.m4a" none
        storePendingDl).recs.map (fun r => (r.status, r.errorMessage)) =
      [(TStatus.failed, some "No transcription provider available")] := by
  exact ⟨rfl, by decide⟩

/-- C8 amended: with the mock-override flag set, the auto-mode pipeline
is served by the deterministic mock provider and completes; the manual
pipeline (`processTranscriptionWithFile`) never consults the override
and, since no non-mock provider was initialized, fails with
`No transcription provider available` — whatever provider variant is
configured. -/
theorem mock_override_auto_only :
    (∀ (cfg : Config) (env : Env) (now : Nat) (s : Store) (i : Nat)
      (r : TRec),
      cfg.useMockTranscription = true →
      findById s i = some r →
      findById (processTranscription cfg (initializeProviders cfg) env now
          s i).store i = some
        { r with
          transcript := env.mockTranscript,
          wordCount := some (countWordsJS env.mockTranscript),
          status := TStatus.completed, progress := 100,
          completedDate := some now } ∧
      (processTranscription cfg (initializeProviders cfg) env now
          s i).calls = [Call.transcribe "mock"]) ∧
    (∀ (cfg : Config) (env : Env) (now : Nat) (s : Store) (i : Nat)
      (r : TRec) (path cp : String),
      cfg.useMockTranscription = true →
      findById s i = some r →
      env.convertResult = .ok cp →
      findById (processTranscriptionWithFile cfg (initializeProviders cfg)
          env now s i path).store i = some
        { r with status := TStatus.failed, progress := 0,
                 errorMessage := some "No transcription provider available" }) := by
  constructor
  · intro cfg env now s i r hmock hr
    have hid : r.id = i := findById_id hr
    have hpv : initializeProviders cfg = ⟨false, false, false, true⟩ := by
      unfold initializeProviders
      simp [hmock]
    have hum : useMockFlag cfg = true := by
      unfold useMockFlag
      simp [hmock]
    have hda : dispatchAuto cfg (initializeProviders cfg) env =
        (.ok env.mockTranscript, [Call.transcribe "mock"]) := by
      unfold dispatchAuto
      simp [hpv, hmock]
    have hpt : processTranscription cfg (initializeProviders cfg) env now
        s i =
        ⟨writeDoc (writeDoc (writeDoc (writeDoc s
            { r with status := .processing, progress := 10 })
            { r with status := .processing, progress := 50 })
            { r with status := .processing, progress := 90 })
          { r with
            status := TStatus.completed, progress := 100,
            transcript := env.mockTranscript,
            wordCount := some (countWordsJS env.mockTranscript),
            completedDate := some now },
         [Call.transcribe "mock"], cleanupPaths cfg none none⟩ := by
      unfold processTranscription audioStage finishTranscription
      simp only [hr, hum, hda, Bool.not_true, Bool.false_and,
        Bool.false_eq_true, if_false, if_true]
      rfl
    rw [hpt]
    constructor
    · rw [findById_writeDoc, findById_writeDoc, findById_writeDoc,
        findById_writeDoc, hr]
      simp [hid]
    · rfl
  · intro cfg env now s i r path cp hmock hr hcv
    have hid : r.id = i := findById_id hr
    have hpv : initializeProviders cfg = ⟨false, false, false, true⟩ := by
      unfold initializeProviders
      simp [hmock]
    have hdm : dispatchManual cfg (initializeProviders cfg) env =
        (.error "No transcription provider available", []) := by
      unfold dispatchManual
      simp [hpv]
    have hpt : processTranscriptionWithFile cfg (initializeProviders cfg)
        env now s i path =
        ⟨failUpdate (writeDoc s { r with progress := 50 }) i
           "No transcription provider available",
         [Call.audioConvert], cleanupManual cfg path (some cp)⟩ := by
      unfold processTranscriptionWithFile
      simp only [hr, hcv, hdm]
      rfl
    rw [hpt]
    rw [findById_failUpdate, findById_writeDoc, hr]
    simp [hid]

/-- Witness for the amended C8: a concrete mock-override run of each
pipeline. -/
theorem mock_override_auto_only_witness :
    findById (processTranscription cfgMockManual
        (initializeProviders cfgMockManual) envCaptions 5 storePending
        0).store 0 = some
      { recPending with
        transcript := "mock words", wordCount := some 2,
        status := TStatus.completed, progress := 100,
        completedDate := some 5 } ∧
    findById (processTranscriptionWithFile cfgMockManual
        (initializeProviders cfgMockManual) envCaptions 9 storePendingDl
        0 "f.m4a").store 0 = some
      { recPendingDl with
        status := TStatus.failed, progress := 0,
        errorMessage := some "No transcription provider available" } := by
  constructor
  · have h := (mock_override_auto_only.1 cfgMockManual envCaptions 5
      storePending 0 recPending rfl (by decide)).1
    have hwc : countWordsJS envCaptions.mockTranscript = 2 := by decide
    rw [hwc] at h
    exact h
  · exact mock_override_auto_only.2 cfgMockManual envCaptions 9
      storePendingDl 0 recPendingDl "f.m4a" "a.wav" rfl (by decide) rfl

/-- C9 counterexample: the only record for video `v1` is failed, yet a
new submission for `v1` does not create a fresh record — the schema's
unique index on `videoId` rejects the insert with a duplicate-key
error and the submission throws. -/
theorem failed_record_blocks_resubmission_cx :
    storeFailed.recs.map (·.status) = [TStatus.failed] ∧
    (startTranscription cfgAuto envCaptions 7 storeFailed "u" "en").result =
      .error "Failed to start transcription: E11000 duplicate key error on videoId" ∧
    (startTranscription cfgAuto envCaptions 7 storeFailed "u" "en").store.recs
      = storeFailed.recs := by
  refine ⟨by decide, by decide, by decide⟩

/-- C9 amended: uniqueness of `externalVideoId` is enforced by the
schema's unique index over all records, failed ones included.  When no
completed/processing record exists but any record (for example a
failed one) already carries the resolved video id, `submit` throws a
wrapped duplicate-key error, creates nothing and launches no
pipeline; retrying a failed video goes through `reset()` instead. -/
theorem failed_record_blocks_resubmission :
    ∀ (cfg : Config) (env : Env) (now : Nat) (s : Store)
      (url lang : String) (vi : VideoInfo),
      (resolveVideoInfo cfg env now url).1 = .ok vi →
      findExisting s vi.videoId = none →
      (∃ x ∈ s.recs, x.videoId = vi.videoId) →
      (∃ e, (startTranscription cfg env now s url lang).result =
        .error e) ∧
      (startTranscription cfg env now s url lang).store = s ∧
      (startTranscription cfg env now s url lang).launched = false := by
  intro cfg env now s url lang vi hres hex ⟨x, hx, hvid⟩
  have hany : (s.recs.any (fun y => y.videoId == vi.videoId)) = true := by
    rw [List.any_eq_true]
    exact ⟨x, hx, by simp [hvid]⟩
  have hsub : startTranscription cfg env now s url lang =
      ⟨.error ("Failed to start transcription: " ++
        "E11000 duplicate key error on videoId"), s,
       (resolveVideoInfo cfg env now url).2, false⟩ := by
    unfold startTranscription submitCore
    rcases hrv : resolveVideoInfo cfg env now url with ⟨res, calls⟩
    rw [hrv] at hres
    dsimp at hres
    subst hres
    unfold afterInfo insertRecord
    simp only [hex, hany, if_true]
  rw [hsub]
  exact ⟨⟨_, rfl⟩, rfl, rfl⟩

/-- Witness for the amended C9 at the concrete failed-record store. -/
theorem failed_record_blocks_resubmission_witness :
    (∃ e, (startTranscription cfgAuto envCaptions 7 storeFailed "u"
      "en").result = .error e) ∧
    (startTranscription cfgAuto envCaptions 7 storeFailed "u" "en").store =
      storeFailed := by
  have h := failed_record_blocks_resubmission cfgAuto envCaptions 7
    storeFailed "u" "en" ⟨"v1", "T", 300⟩ (by decide) (by decide)
    ⟨recFailed, by decide, rfl⟩
  exact ⟨h.1, h.2.1⟩

/-- C10 counterexample: in auto mode, the API lookup for an 8000-second
video throws the duration-ceiling error, but `startTranscription`
swallows it by falling back to the Python downloader client (which has
no duration check): the submission succeeds and a transcript record
for the over-long video is created. -/
theorem overlong_video_record_created :
    apiGetVideoInfo cfgAuto envLongVideo =
      .error "Video duration (8000s) exceeds maximum allowed duration (7200s)" ∧
    (startTranscription cfgAuto envLongVideo 7 ⟨[], 0⟩ "u" "en").result =
      .ok 0 ∧
    (startTranscription cfgAuto envLongVideo 7 ⟨[], 0⟩ "u"
        "en").store.recs.map (·.videoDuration) = [8000] := by
  refine ⟨by decide, by decide, by decide⟩

/-- C10 amended: the duration ceiling is enforced inside the YouTube
API lookup, which throws an error naming the limit; a submission fails
before creating a record only when that error propagates, i.e. in
`manual_download` mode (no fallback).  In auto mode the error triggers
the yt-dlp/Python-downloader fallback, which performs no duration
check, so the submission proceeds and creates the record. -/
theorem duration_ceiling_enforcement :
    (∀ (cfg : Config) (env : Env) (vi : VideoInfo),
      env.apiInfo = .ok vi → vi.duration > cfg.maxVideoLengthSeconds →
      apiGetVideoInfo cfg env =
        .error ("Video duration (" ++ toString vi.duration ++
          "s) exceeds maximum allowed duration (" ++
          toString cfg.maxVideoLengthSeconds ++ "s)")) ∧
    (∀ (cfg : Config) (env : Env) (now : Nat) (s : Store)
      (url lang e : String),
      cfg.transcriptionWorkflow = "manual_download" →
      useMockFlag cfg = false →
      cfg.youtubeApiConfigured = true →
      apiGetVideoInfo cfg env = .error e →
      (∃ e2, (startTranscription cfg env now s url lang).result =
        .error e2) ∧
      (startTranscription cfg env now s url lang).store = s) ∧
    (∀ (cfg : Config) (env : Env) (now : Nat) (s : Store)
      (url lang e : String) (vi : VideoInfo),
      cfg.transcriptionWorkflow ≠ "manual_download" →
      useMockFlag cfg = false →
      cfg.youtubeApiConfigured = true →
      apiGetVideoInfo cfg env = .error e →
      env.pythonInfo = .ok vi →
      findExisting s vi.videoId = none →
      (∀ x ∈ s.recs, x.videoId ≠ vi.videoId) →
      (startTranscription cfg env now s url lang).result = .ok s.nextId ∧
      ∃ r ∈ (startTranscription cfg env now s url lang).store.recs,
        r.id = s.nextId ∧ r.videoDuration = vi.duration) := by
  refine ⟨?_, ?_, ?_⟩
  · intro cfg env vi ha hd
    unfold apiGetVideoInfo
    simp only [ha]
    rw [if_pos hd]
  · intro cfg env now s url lang e hw hm hac hae
    have hsub : startTranscription cfg env now s url lang =
        ⟨.error ("Failed to start transcription: " ++
          ("YouTube API failed to get video info: " ++ e ++
           ". Please check YOUTUBE_API_KEY is configured.")), s,
         [Call.videoInfoApi], false⟩ := by
      unfold startTranscription submitCore resolveVideoInfo
      simp only [hm, hac, hae, hw, Bool.false_eq_true, if_false, if_true,
        beq_self_eq_true]
    rw [hsub]
    exact ⟨⟨_, rfl⟩, rfl⟩
  · intro cfg env now s url lang e vi hw hm hac hae hp hex hall
    have hany : (s.recs.any (fun y => y.videoId == vi.videoId)) = false := by
      rw [List.any_eq_false]
      intro x hx
      simp [hall x hx]
    have hw' : (cfg.transcriptionWorkflow == "manual_download") = false := by
      simp [hw]
    have hsub : startTranscription cfg env now s url lang =
        ⟨.ok s.nextId,
         ⟨s.recs ++
            [{ id := s.nextId,
               youtubeUrl := url,
               videoId := vi.videoId,
               videoTitle := vi.title,
               videoDuration := vi.duration,
               language := lang,
               status := .pending, progress := 0, transcript := "",
               wordCount := none, errorMessage := none,
               provider := cfg.transcriptionProvider,
               audioFilePath := none,
               createdDate := now, completedDate := none }],
          s.nextId + 1⟩,
         [Call.videoInfoApi, Call.videoInfoPython], true⟩ := by
      unfold startTranscription submitCore resolveVideoInfo afterInfo
        insertRecord
      simp only [hm, hac, hae, hp, hw', hex, hany, Bool.false_eq_true,
        if_false, if_true]
      rfl
    rw [hsub]
    refine ⟨rfl, ?_⟩
    refine ⟨_, List.mem_append_right _ (List.mem_singleton_self _), rfl, rfl⟩

/-- Witness for the amended C10: the concrete over-long video. -/
theorem duration_ceiling_enforcement_witness :
    apiGetVideoInfo cfgAuto envLongVideo =
      .error ("Video duration (" ++ toString 8000 ++
        "s) exceeds maximum allowed duration (" ++ toString 7200 ++
        "s)") :=
  duration_ceiling_enforcement.1 cfgAuto envLongVideo ⟨"v1", "T", 8000⟩
    rfl (by decide)

end VT
